import Mathlib

/-!
# CityFlow metrics & aggregation engine — verification development

Shallow embedding of the metrics/aggregation core of the CityFlow
analytics repository (`processors/metrics.py`, `processors/aggregation.py`).

Modelling conventions:
* A pandas `DataFrame` is a `DF`: an explicit column list plus a list of
  rows; each row is an association list from column name to `Val`.
* Scalar cell values (`Val`) are strings, rationals, booleans or null.
  Python/numpy floats are modelled as exact rationals; `NaN`/`NaT`/`None`
  are all modelled as `Val.null` (pandas treats them uniformly as missing).
* Timestamps are rationals counting hours since the epoch
  (1970-01-01 00:00, a Thursday); calendar days are whole numbers of the
  derived day count (`⌊t/24⌋`).
* Functions that can raise in Python (`KeyError` on a missing column,
  explicit `raise ValueError`) are embedded in `Except String`.
* `numpy.sqrt` is modelled by `ratSqrt`, which is exact on rationals whose
  numerator and denominator are perfect squares (every concrete instance
  used below is of that form).
-/

/-- Scalar cell value of a relation.  `null` models NaN/NaT/None alike. -/
inductive Val where
  | null : Val
  | str (s : String) : Val
  | num (q : ℚ) : Val
  | bool (b : Bool) : Val
deriving DecidableEq, Repr

/-- A row: association list from column name to value. -/
abbrev Row : Type := List (String × Val)

/-- Read a cell; a missing column reads as `null` (the fallible accesses of
the source are modelled separately with explicit column checks). -/
def Row.getV (r : Row) (c : String) : Val :=
  match List.find? (fun p => p.1 == c) r with
  | some p => p.2
  | none => Val.null

/-- Write a cell, appending the column if absent. -/
def Row.setV (r : Row) (c : String) (v : Val) : Row :=
  if (List.find? (fun p => p.1 == c) r).isSome then
    List.map (fun p => if p.1 == c then (c, v) else p) r
  else r ++ [(c, v)]

/-- In-memory relation: pandas `DataFrame`. -/
structure DF where
  cols : List String
  rows : List Row
deriving DecidableEq, Repr

instance {e a : Type} [DecidableEq e] [DecidableEq a] : DecidableEq (Except e a) :=
  fun x y =>
    match x, y with
    | Except.ok u, Except.ok v =>
      if h : u = v then isTrue (by rw [h]) else isFalse (fun hh => h (Except.ok.inj hh))
    | Except.error u, Except.error v =>
      if h : u = v then isTrue (by rw [h]) else isFalse (fun hh => h (Except.error.inj hh))
    | Except.ok _, Except.error _ => isFalse (fun hh => Except.noConfusion hh)
    | Except.error _, Except.ok _ => isFalse (fun hh => Except.noConfusion hh)

/-- `pd.DataFrame()`: no columns, no rows. -/
def DF.emptyDF : DF := ⟨[], []⟩

/-- `df.empty` in pandas: no rows. -/
def DF.isEmpty (df : DF) : Bool := df.rows.isEmpty

/-- `c in df.columns`. -/
def DF.hasCol (df : DF) (c : String) : Bool := df.cols.contains c

/-- Add (or overwrite) a column computed from each row. -/
def DF.addCol (df : DF) (c : String) (f : Row → Val) : DF :=
  ⟨if df.cols.contains c then df.cols else df.cols ++ [c],
   df.rows.map (fun r => r.setV c (f r))⟩

/-- Add a constant column. -/
def DF.addConst (df : DF) (c : String) (v : Val) : DF :=
  df.addCol c (fun _ => v)

/-- Map a single column in place. -/
def DF.mapCol (df : DF) (c : String) (f : Val → Val) : DF :=
  df.addCol c (fun r => f (r.getV c))

/-- Keep the rows satisfying a predicate. -/
def DF.filterRows (df : DF) (p : Row → Bool) : DF :=
  ⟨df.cols, df.rows.filter p⟩

/-- `df.dropna(subset=cs)`. -/
def DF.dropna (df : DF) (cs : List String) : DF :=
  df.filterRows (fun r => cs.all (fun c => !(r.getV c == Val.null)))

/-- `df[cs]` projection (the caller checks column presence where the
source would raise). -/
def DF.select (df : DF) (cs : List String) : DF :=
  ⟨cs, df.rows.map (fun r => cs.map (fun c => (c, r.getV c)))⟩

/-- `df[cs]` as in pandas: raises `KeyError` when a column is absent. -/
def DF.selectE (df : DF) (cs : List String) : Except String DF :=
  if cs.all df.cols.contains then Except.ok (df.select cs)
  else Except.error "KeyError: column not found"

/-- Drop columns. -/
def DF.dropCols (df : DF) (cs : List String) : DF :=
  ⟨df.cols.filter (fun c => !(cs.contains c)),
   df.rows.map (fun r => r.filter (fun p => !(cs.contains p.1)))⟩

/-- `df.rename(columns={a: b})`. -/
def DF.renameCol (df : DF) (a b : String) : DF :=
  ⟨df.cols.map (fun c => if c == a then b else c),
   df.rows.map (fun r => r.map (fun p => if p.1 == a then (b, p.2) else p))⟩

/-- Keep the first row for each key value already not in `seen`. -/
def dropDupFirstAux (c : String) (seen : List Val) : List Row → List Row
  | [] => []
  | r :: rs =>
    if seen.contains (r.getV c) then dropDupFirstAux c seen rs
    else r :: dropDupFirstAux c (r.getV c :: seen) rs

/-- `df.drop_duplicates(c)` (keep the first occurrence of each key). -/
def DF.dropDupFirst (df : DF) (c : String) : DF :=
  ⟨df.cols, dropDupFirstAux c [] df.rows⟩

/-- Numeric view of a value. -/
def Val.toNum? : Val → Option ℚ
  | Val.num q => some q
  | _ => none

/-- The numeric entries of a column, in row order (pandas numeric
aggregations skip missing values). -/
def DF.colNums (df : DF) (c : String) : List ℚ :=
  df.rows.filterMap (fun r => (r.getV c).toNum?)

/-- `str(value)` as used by `astype(str)`; `str(nan) = "nan"`. -/
def Val.toStr : Val → String
  | Val.null => "nan"
  | Val.str s => s
  | Val.num q => toString q
  | Val.bool b => toString b

/-! ## Numeric helpers (pandas/numpy semantics over exact rationals) -/

/-- Mean of a list of rationals; `null` on an empty list (pandas
`mean(skipna=True)` over no observations is NaN). -/
def meanQ (xs : List ℚ) : Val :=
  if xs.isEmpty then Val.null else Val.num (xs.sum / xs.length)

/-- Model of `numpy.sqrt` on nonnegative rationals: exact whenever the
numerator and denominator are perfect squares (all concrete values used in
this development are of that form). -/
def natSqrt (n : Nat) : Nat :=
  ((List.range (n + 1)).filter fun k => k * k ≤ n).length - 1

def ratSqrt (q : ℚ) : ℚ :=
  if q ≤ 0 then 0 else (natSqrt q.num.toNat : ℚ) / (natSqrt q.den : ℚ)

/-- Sample variance (`ddof=1`); `null` with fewer than two observations. -/
def sampleVarQ (xs : List ℚ) : Val :=
  if xs.length ≤ 1 then Val.null
  else
    let m : ℚ := xs.sum / xs.length
    Val.num ((xs.map (fun x => (x - m) ^ 2)).sum / (xs.length - 1 : ℚ))

/-- Sample standard deviation (`pandas .std()`, `ddof=1`). -/
def sampleStdQ (xs : List ℚ) : Val :=
  match sampleVarQ xs with
  | Val.num v => Val.num (ratSqrt v)
  | _ => Val.null

/-- Banker's rounding to an integer (Python `round`, numpy `round`). -/
def roundHalfEven (q : ℚ) : ℤ :=
  let f : ℤ := ⌊q⌋
  let r : ℚ := q - f
  if r < 1/2 then f
  else if r > 1/2 then f + 1
  else if f % 2 = 0 then f else f + 1

/-- `round(q, d)` / `Series.round(d)`: banker's rounding to `d` decimals. -/
def roundToQ (q : ℚ) (d : ℕ) : ℚ :=
  (roundHalfEven (q * (10 : ℚ) ^ d) : ℚ) / (10 : ℚ) ^ d

/-- Pandas `Series.quantile(p)` with the default linear interpolation,
over an already-extracted nonempty list of numeric values. -/
def quantileQ (xs : List ℚ) (p : ℚ) : ℚ :=
  let s := List.insertionSort (fun a b => a ≤ b) xs
  let n := s.length
  let h : ℚ := p * ((n : ℚ) - 1)
  let i : ℕ := (⌊h⌋).toNat
  let lo := s.getD i 0
  let hi := s.getD (i + 1) lo
  lo + (h - (⌊h⌋ : ℚ)) * (hi - lo)

/-- Pearson correlation coefficient of two paired series
(`DataFrame.corr().iloc[0, 1]`): `null` (NaN) with fewer than two pairs or
when either series has zero variance. -/
def pearsonQ (xs ys : List ℚ) : Val :=
  let n := min xs.length ys.length
  if n < 2 then Val.null
  else
    let xs := xs.take n
    let ys := ys.take n
    let mx : ℚ := xs.sum / n
    let my : ℚ := ys.sum / n
    let sxx := (xs.map (fun x => (x - mx) ^ 2)).sum
    let syy := (ys.map (fun y => (y - my) ^ 2)).sum
    let sxy := (List.zipWith (fun x y => (x - mx) * (y - my)) xs ys).sum
    if sxx = 0 ∨ syy = 0 then Val.null
    else Val.num (sxy / (ratSqrt sxx * ratSqrt syy))

/-! ## Value-level arithmetic and comparisons (NaN-propagating) -/

/-- Subtraction; any non-numeric operand yields `null` (NaN). -/
def vsub : Val → Val → Val
  | Val.num a, Val.num b => Val.num (a - b)
  | _, _ => Val.null

/-- Division; division by zero yields `null`.  (numpy distinguishes
`0/0 = NaN` from `x/0 = ±inf`; in every use below the numerator is
provably `0` whenever the divisor is, so the distinction never shows.) -/
def vdiv : Val → Val → Val
  | Val.num a, Val.num b => if b = 0 then Val.null else Val.num (a / b)
  | _, _ => Val.null

/-- `Series.fillna(0)` on one value. -/
def vfill0 : Val → Val
  | Val.null => Val.num 0
  | v => v

/-- Strict `>` comparison; comparisons against missing values are `False`
in pandas. -/
def vgtB : Val → Val → Bool
  | Val.num a, Val.num b => decide (b < a)
  | _, _ => false

/-- `≤` comparison; `False` when either side is missing. -/
def vleB : Val → Val → Bool
  | Val.num a, Val.num b => decide (a ≤ b)
  | _, _ => false

/-- `|·| >` comparison for the z-score filter. -/
def vabsGtB : Val → ℚ → Bool
  | Val.num a, t => decide (t < |a|)
  | _, _ => false

/-! ## Timestamps

Timestamps are rationals counting hours since 1970-01-01 00:00 (a
Thursday).  `pd.to_datetime(·, errors="coerce")` keeps numeric timestamps
and coerces anything else to `NaT` (the inputs arrive pre-typed, so a
non-numeric entry is malformed data). -/

def toDatetime : Val → Val
  | Val.num q => Val.num q
  | _ => Val.null

/-- `.dt.date`: the calendar day, as a whole number of days. -/
def dtDate : Val → Val
  | Val.num q => Val.num ((⌊q / 24⌋ : ℤ) : ℚ)
  | _ => Val.null

/-- `.dt.hour`. -/
def dtHour : Val → Val
  | Val.num q => Val.num (((⌊q⌋ % 24 : ℤ)) : ℚ)
  | _ => Val.null

/-- `.dt.dayofweek`: Monday = 0 … Sunday = 6 (day 0 is a Thursday). -/
def dayOfWeek (day : ℤ) : ℤ := (day + 3) % 7

/-- `.dt.day_name()`. -/
def dayName (day : ℤ) : String :=
  [ "Monday", "Tuesday", "Wednesday", "Thursday",
    "Friday", "Saturday", "Sunday"].getD (dayOfWeek day).toNat "Monday"

/-! ## Group-by

Pandas `groupby` keeps one group per distinct key tuple and drops rows
whose key contains a missing value.  (Pandas orders groups by sorted key;
the theorems below are stated order-insensitively, and groups are kept
here in order of first appearance.) -/

/-- Distinct elements in order of first appearance. -/
def firstDedupAux (seen : List (List Val)) : List (List Val) → List (List Val)
  | [] => []
  | k :: ks =>
    if seen.contains k then firstDedupAux seen ks
    else k :: firstDedupAux (k :: seen) ks

def firstDedup (l : List (List Val)) : List (List Val) := firstDedupAux [] l

/-- The key tuple of a row. -/
def keyOf (ks : List String) (r : Row) : List Val := ks.map r.getV

/-- Group keys: distinct non-null key tuples in order of first appearance. -/
def groupKeys (ks : List String) (rows : List Row) : List (List Val) :=
  firstDedup ((rows.map (keyOf ks)).filter (fun k => !(k.contains Val.null)))

/-- `df.groupby(ks).agg(aggs).reset_index()`: one output row per group,
key columns first, then one aggregated column per `(name, f)` where `f`
sees the group's rows. -/
def DF.groupAgg (df : DF) (ks : List String) (aggs : List (String × (List Row → Val))) : DF :=
  ⟨ks ++ aggs.map Prod.fst,
   (groupKeys ks df.rows).map (fun k =>
     let grp := df.rows.filter (fun r => keyOf ks r == k)
     List.zip ks k ++ aggs.map (fun a => (a.1, a.2 grp)))⟩

/-- Aggregation over one numeric column: sum (pandas sums missing as 0). -/
def aggSum (c : String) (rows : List Row) : Val :=
  Val.num (rows.filterMap (fun r => (r.getV c).toNum?)).sum

/-- Aggregation: mean. -/
def aggMean (c : String) (rows : List Row) : Val :=
  meanQ (rows.filterMap (fun r => (r.getV c).toNum?))

/-- Aggregation: sample standard deviation. -/
def aggStd (c : String) (rows : List Row) : Val :=
  sampleStdQ (rows.filterMap (fun r => (r.getV c).toNum?))

/-- Aggregation: max (`null` over no observations). -/
def aggMax (c : String) (rows : List Row) : Val :=
  match rows.filterMap (fun r => (r.getV c).toNum?) with
  | [] => Val.null
  | x :: xs => Val.num (xs.foldl max x)

/-- Aggregation: `count` of non-missing observations. -/
def aggCount (c : String) (rows : List Row) : Val :=
  Val.num (rows.filterMap (fun r => (r.getV c).toNum?)).length

/-- Aggregation: `size` (all rows of the group). -/
def aggSize (rows : List Row) : Val := Val.num rows.length

/-- Aggregation: median. -/
def aggMedian (c : String) (rows : List Row) : Val :=
  match rows.filterMap (fun r => (r.getV c).toNum?) with
  | [] => Val.null
  | xs => Val.num (quantileQ xs (1/2))

/-! ## Merge (pandas `DataFrame.merge` on a single key)

Column-name collisions outside the key are disambiguated with the given
suffixes, exactly as pandas does with `suffixes=(ls, rs)`.  Row order:
left rows in order (each matched against all right rows with an equal
key), and for an outer merge the unmatched right rows appended — pandas
sorts outer-join keys instead, and the theorems below are stated
order-insensitively. -/

inductive MergeHow where
  | left : MergeHow
  | inner : MergeHow
  | outer : MergeHow
deriving DecidableEq

def mergeLRename (rcols : List String) (key ls : String) (c : String) : String :=
  if c ≠ key ∧ rcols.contains c then c ++ ls else c

def mergeRRename (lcols : List String) (key rs : String) (c : String) : String :=
  if c ≠ key ∧ lcols.contains c then c ++ rs else c

/-- The combined row for one left row and (optionally) one matching right
row; with no match the right-hand columns are missing (`null`). -/
def mergeRowL (l r : DF) (key ls rs : String) (lr : Row) (rr? : Option Row) : Row :=
  l.cols.map (fun c => (mergeLRename r.cols key ls c, lr.getV c)) ++
  (r.cols.filter (fun c => !(c == key))).map
    (fun c => (mergeRRename l.cols key rs c,
               match rr? with
               | some rr => rr.getV c
               | none => Val.null))

/-- The combined row for an unmatched right row (outer merge only). -/
def mergeRowR (l r : DF) (key ls rs : String) (rr : Row) : Row :=
  l.cols.map (fun c => (mergeLRename r.cols key ls c,
                        if c == key then rr.getV key else Val.null)) ++
  (r.cols.filter (fun c => !(c == key))).map
    (fun c => (mergeRRename l.cols key rs c, rr.getV c))

def DF.merge (l r : DF) (key : String) (how : MergeHow) (ls rs : String) : DF :=
  let outCols :=
    l.cols.map (mergeLRename r.cols key ls) ++
    (r.cols.filter (fun c => !(c == key))).map (mergeRRename l.cols key rs)
  let leftPart : List Row :=
    l.rows.flatMap (fun lr =>
      match r.rows.filter (fun rr => rr.getV key == lr.getV key) with
      | [] =>
        match how with
        | MergeHow.inner => []
        | _ => [mergeRowL l r key ls rs lr none]
      | rrs => rrs.map (fun rr => mergeRowL l r key ls rs lr (some rr)))
  let rightPart : List Row :=
    match how with
    | MergeHow.outer =>
      (r.rows.filter (fun rr =>
        !(l.rows.any (fun lr => lr.getV key == rr.getV key)))).map
          (mergeRowR l r key ls rs)
    | _ => []
  ⟨outCols, leftPart ++ rightPart⟩

/-! ## Row sorting (`sort_values` / `nlargest`) -/

/-- Sort key for a numeric column (missing values sort as 0; every use
below is on a column that is provably numeric). -/
def rowNum (c : String) (r : Row) : ℚ := ((r.getV c).toNum?).getD 0

/-- `df.sort_values(c, ascending=False)` / `nlargest` order: descending by
the numeric value of `c`, stable on ties (`keep="first"`). -/
def sortRowsDescBy (f : Row → ℚ) (rows : List Row) : List Row :=
  List.insertionSort (fun a b => f b ≤ f a) rows

/-- `df.nlargest(n, c)`. -/
def DF.nlargest (df : DF) (n : ℕ) (c : String) : DF :=
  ⟨df.cols, (sortRowsDescBy (rowNum c) df.rows).take n⟩

/-! ## SHA-256 (`hashlib.sha256`)

A direct embedding of FIPS 180-4 over `ℕ` with explicit reduction
modulo `2^32`, used by the deterministic coordinate fallback. -/

def M32 : ℕ := 2 ^ 32

def add32 (a b : ℕ) : ℕ := (a + b) % M32

def xor32 (a b : ℕ) : ℕ := a ^^^ b

def and32 (a b : ℕ) : ℕ := a &&& b

def not32 (a : ℕ) : ℕ := a ^^^ (M32 - 1)

def rotr32 (n x : ℕ) : ℕ := ((x >>> n) ||| (x <<< (32 - n))) % M32

def shr32 (n x : ℕ) : ℕ := x >>> n

def bigSigma0 (x : ℕ) : ℕ := xor32 (rotr32 2 x) (xor32 (rotr32 13 x) (rotr32 22 x))

def bigSigma1 (x : ℕ) : ℕ := xor32 (rotr32 6 x) (xor32 (rotr32 11 x) (rotr32 25 x))

def smallSigma0 (x : ℕ) : ℕ := xor32 (rotr32 7 x) (xor32 (rotr32 18 x) (shr32 3 x))

def smallSigma1 (x : ℕ) : ℕ := xor32 (rotr32 17 x) (xor32 (rotr32 19 x) (shr32 10 x))

def sha256Ch (x y z : ℕ) : ℕ := xor32 (and32 x y) (and32 (not32 x) z)

def sha256Maj (x y z : ℕ) : ℕ := xor32 (and32 x y) (xor32 (and32 x z) (and32 y z))

def sha256K : List ℕ :=
  [1116352408, 1899447441, 3049323471, 3921009573, 961987163, 1508970993,
   2453635748, 2870763221, 3624381080, 310598401, 607225278, 1426881987,
   1925078388, 2162078206, 2614888103, 3248222580, 3835390401, 4022224774,
   264347078, 604807628, 770255983, 1249150122, 1555081692, 1996064986,
   2554220882, 2821834349, 2952996808, 3210313671, 3336571891, 3584528711,
   113926993, 338241895, 666307205, 773529912, 1294757372, 1396182291,
   1695183700, 1986661051, 2177026350, 2456956037, 2730485921, 2820302411,
   3259730800, 3345764771, 3516065817, 3600352804, 4094571909, 275423344,
   430227734, 506948616, 659060556, 883997877, 958139571, 1322822218,
   1537002063, 1747873779, 1955562222, 2024104815, 2227730452, 2361852424,
   2428436474, 2756734187, 3204031479, 3329325298]

def sha256H0 : List ℕ :=
  [1779033703, 3144134277, 1013904242, 2773480762,
   1359893119, 2600822924, 528734635, 1541459225]

/-- UTF-8 encoding of one character. -/
def utf8Char (c : Char) : List ℕ :=
  let n := c.toNat
  if n < 0x80 then [n]
  else if n < 0x800 then
    [0xC0 ||| (n >>> 6), 0x80 ||| (n &&& 0x3F)]
  else if n < 0x10000 then
    [0xE0 ||| (n >>> 12), 0x80 ||| ((n >>> 6) &&& 0x3F), 0x80 ||| (n &&& 0x3F)]
  else
    [0xF0 ||| (n >>> 18), 0x80 ||| ((n >>> 12) &&& 0x3F),
     0x80 ||| ((n >>> 6) &&& 0x3F), 0x80 ||| (n &&& 0x3F)]

/-- `s.encode("utf-8")` as a byte list. -/
def utf8Bytes (s : String) : List ℕ := s.data.flatMap utf8Char

/-- Big-endian bytes of `n`, `w` bytes wide. -/
def beBytes (w n : ℕ) : List ℕ :=
  (List.range w).map (fun i => (n >>> (8 * (w - 1 - i))) % 256)

/-- SHA-256 padding: `0x80`, zeros to 56 mod 64, 64-bit big-endian bit length. -/
def sha256Pad (msg : List ℕ) : List ℕ :=
  let L := msg.length
  let padZeros := (64 + 56 - (L + 1) % 64) % 64
  msg ++ [0x80] ++ List.replicate padZeros 0 ++ beBytes 8 (8 * L)

/-- Split a byte list into 64-byte blocks. -/
def chunks64 : List ℕ → List (List ℕ)
  | [] => []
  | b :: bs => (b :: bs).take 64 :: chunks64 ((b :: bs).drop 64)
termination_by l => l.length
decreasing_by simp; omega

/-- Big-endian 32-bit words from bytes. -/
def bytesToWords : List ℕ → List ℕ
  | b0 :: b1 :: b2 :: b3 :: bs =>
    (((b0 * 256 + b1) * 256 + b2) * 256 + b3) :: bytesToWords bs
  | _ => []

/-- The next word of the message schedule, from the reversed prefix. -/
def scheduleWord (wrev : List ℕ) : ℕ :=
  (smallSigma1 (wrev.getD 1 0) + wrev.getD 6 0 +
   smallSigma0 (wrev.getD 14 0) + wrev.getD 15 0) % M32

/-- Extend the (reversed) schedule by `n` words. -/
def extendSchedule (wrev : List ℕ) : ℕ → List ℕ
  | 0 => wrev
  | n + 1 => extendSchedule (scheduleWord wrev :: wrev) n

/-- The 64-word message schedule of one block. -/
def sha256Schedule (block : List ℕ) : List ℕ :=
  (extendSchedule (bytesToWords block).reverse 48).reverse

/-- One compression round. -/
def sha256Round (st : List ℕ) (kw : ℕ × ℕ) : List ℕ :=
  match st with
  | [a, b, c, d, e, f, g, h] =>
    let t1 := (h + bigSigma1 e + sha256Ch e f g + kw.1 + kw.2) % M32
    let t2 := (bigSigma0 a + sha256Maj a b c) % M32
    [add32 t1 t2, a, b, c, add32 d t1, e, f, g]
  | st => st

/-- Process one 512-bit block. -/
def sha256Block (h : List ℕ) (block : List ℕ) : List ℕ :=
  let st := (List.zip sha256K (sha256Schedule block)).foldl sha256Round h
  List.zipWith add32 h st

/-- The eight 32-bit hash words of the UTF-8 encoding of `s`. -/
def sha256Words (s : String) : List ℕ :=
  (chunks64 (sha256Pad (utf8Bytes s))).foldl sha256Block sha256H0

/-- `int(hashlib.sha256(s.encode()).hexdigest()[:16], 16)`: the first 16
hex digits of the digest are its 64 most significant bits, i.e. the first
two hash words. -/
def sha256Top16Hex (s : String) : ℕ :=
  ((sha256Words s).getD 0 0) * M32 + (sha256Words s).getD 1 0

/-! ## Coordinate resolution (`processors/metrics.py`)

`_load_reference_coordinates` reads a packaged JSON file (absent from this
snapshot of the repository) and caches the result for the process
lifetime; the cached static reference table is threaded through here as an
explicit `refCoords` relation with columns
`[compteur_id, latitude, longitude]`, non-null coordinates and one row per
id (the loader filters null coordinates and builds from a JSON object
keyed by id). -/

/-- `_extract_coordinates_from_bikes`.  Nested dict / JSON-string
coordinate encodings lie outside the scalar value model: `_safe_parse`
yields `(None, None)` on every scalar, so the `coordinates`-column branch
produces null temporaries that the `dropna` below removes. -/
def extractCoordinatesFromBikes (dfBikes : Option DF) : DF :=
  let emptyCoords : DF := ⟨["compteur_id", "latitude", "longitude"], []⟩
  match dfBikes with
  | none => emptyCoords
  | some df =>
    if df.isEmpty then emptyCoords
    else
      match ["id_compteur", "compteur_id", "id"].find? df.hasCol with
      | none => emptyCoords
      | some idCol =>
        let latCol? := ["coordinates.lat", "latitude", "lat"].find? df.hasCol
        let lonCol? := ["coordinates.lon", "longitude", "lon"].find? df.hasCol
        let coordDf? : Option (DF × String × String) :=
          match latCol?, lonCol? with
          | some latCol, some lonCol =>
            some (df.select [idCol, latCol, lonCol], latCol, lonCol)
          | _, _ =>
            if df.hasCol "coordinates" then
              some (⟨[idCol, "latitude_tmp", "longitude_tmp"],
                     df.rows.map (fun r =>
                       [(idCol, r.getV idCol), ("latitude_tmp", Val.null),
                        ("longitude_tmp", Val.null)])⟩,
                    "latitude_tmp", "longitude_tmp")
            else none
        match coordDf? with
        | none => emptyCoords
        | some (coordDf, latCol, lonCol) =>
          let renamed := ((coordDf.renameCol idCol "compteur_id").renameCol
            latCol "latitude").renameCol lonCol "longitude"
          ((renamed.dropna ["latitude", "longitude"]).dropDupFirst
            "compteur_id").select ["compteur_id", "latitude", "longitude"]

/-- `_hash_to_unit(value, offset)`:
`int(sha256((value + str(offset)).encode()).hexdigest()[:16], 16) / 16**16`. -/
def hashToUnit (value : String) (offset : ℕ) : ℚ :=
  (sha256Top16Hex (value ++ toString offset) : ℚ) / (16 : ℚ) ^ 16

/-- Fallback latitude for an id: salt 0, Paris box [48.80, 48.90). -/
def fallbackLat (cid : String) : ℚ :=
  48.80 + hashToUnit cid 0 * (48.90 - 48.80)

/-- Fallback longitude for an id: salt 1, Paris box [2.25, 2.42). -/
def fallbackLon (cid : String) : ℚ :=
  2.25 + hashToUnit cid 1 * (2.42 - 2.25)

/-- `_assign_fallback_coordinates`: rows whose latitude **or** longitude is
missing get **both** coordinates replaced by the deterministic hash
fallback. -/
def assignFallbackCoordinates (df : DF) : DF :=
  if df.isEmpty || !df.hasCol "compteur_id" then df
  else
    let frame := if df.hasCol "latitude" then df else df.addConst "latitude" Val.null
    let frame := if frame.hasCol "longitude" then frame else frame.addConst "longitude" Val.null
    ⟨frame.cols,
     frame.rows.map (fun r =>
       if r.getV "latitude" == Val.null || r.getV "longitude" == Val.null then
         let cid := (r.getV "compteur_id").toStr
         (r.setV "latitude" (Val.num (fallbackLat cid))).setV "longitude"
           (Val.num (fallbackLon cid))
       else r)⟩

/-- One enrichment stage: left-merge a coordinate mapping, fill the missing
latitude/longitude entries from the suffixed columns, drop the temporaries. -/
def coordFillStep (enriched coordDf : DF) (suf : String) : DF :=
  let merged := enriched.merge coordDf "compteur_id" MergeHow.left "" suf
  ["latitude", "longitude"].foldl
    (fun acc coord =>
      let sufCol := coord ++ suf
      if acc.hasCol sufCol then
        (if acc.hasCol coord then
           acc.addCol coord (fun r =>
             if r.getV coord == Val.null then r.getV sufCol else r.getV coord)
         else acc.addCol coord (fun r => r.getV sufCol)).dropCols [sufCol]
      else acc)
    merged

/-- `_enrich_comptage_with_coordinates`.  The merges raise `KeyError` when
`compteur_id` is absent, and the trailing debug `print` raises `KeyError`
when any of `compteur_id`/`latitude`/`longitude` is absent from the result. -/
def enrichComptageWithCoordinates (refCoords : DF) (dfComptage : DF)
    (dfBikes : Option DF) : Except String DF :=
  if dfComptage.isEmpty then Except.ok dfComptage
  else do
    let coordDf := extractCoordinatesFromBikes dfBikes
    let e1 ←
      if coordDf.isEmpty then pure dfComptage
      else if dfComptage.hasCol "compteur_id" && coordDf.hasCol "compteur_id" then
        pure (coordFillStep dfComptage coordDf "_bike")
      else Except.error "KeyError: compteur_id"
    let e2 ←
      if refCoords.isEmpty then pure e1
      else if e1.hasCol "compteur_id" && refCoords.hasCol "compteur_id" then
        pure (coordFillStep e1 refCoords "_ref")
      else Except.error "KeyError: compteur_id"
    let e3 := assignFallbackCoordinates e2
    if e3.hasCol "compteur_id" && e3.hasCol "latitude" && e3.hasCol "longitude" then
      pure e3
    else Except.error "KeyError: debug print column"

/-! ## Metric functions (`processors/metrics.py`) -/

/-- Aggregation: min. -/
def aggMin (c : String) (rows : List Row) : Val :=
  match rows.filterMap (fun r => (r.getV c).toNum?) with
  | [] => Val.null
  | x :: xs => Val.num (xs.foldl min x)

/-- `int(q)`: truncation toward zero. -/
def truncQ (q : ℚ) : ℚ := ((Int.tdiv q.num q.den : ℤ) : ℚ)

/-- `calculate_debit_horaire`. -/
def calculate_debit_horaire (df : DF) : DF :=
  if df.isEmpty || !df.hasCol "compteur_id" || !df.hasCol "comptage_horaire" then
    DF.emptyDF
  else
    df.groupAgg ["compteur_id"]
      [("debit_horaire_moyen", aggMean "comptage_horaire"),
       ("debit_horaire_median", aggMedian "comptage_horaire"),
       ("debit_horaire_min", aggMin "comptage_horaire"),
       ("debit_horaire_max", aggMax "comptage_horaire"),
       ("debit_total", aggSum "comptage_horaire"),
       ("nb_mesures", aggCount "comptage_horaire")]

/-- Maximum of a numeric column. -/
def colMax? (df : DF) (c : String) : Option ℚ :=
  match df.colNums c with
  | [] => none
  | x :: xs => some (xs.foldl max x)

/-- `calculate_debit_journalier`.  The guard checks `compteur_id` and
`date_heure` but not `comptage_horaire`: the top-counter `groupby` raises
`KeyError` when the latter is absent.  When every date is missing the
`max()` is `NaT` and the date comparison filters every row (pandas
comparisons against `NaT` are `False`). -/
def calculate_debit_journalier (df : DF) (topNCompteurs : ℕ := 50)
    (lastNDays : ℕ := 60) : Except String DF :=
  if df.isEmpty || !df.hasCol "compteur_id" || !df.hasCol "date_heure" then
    Except.ok DF.emptyDF
  else if !df.hasCol "comptage_horaire" then
    Except.error "KeyError: comptage_horaire"
  else
    let frame := df.addCol "date" (fun r => dtDate (toDatetime (r.getV "date_heure")))
    let sums := frame.groupAgg ["compteur_id"] [("s", aggSum "comptage_horaire")]
    let topIds := ((sortRowsDescBy (rowNum "s") sums.rows).take topNCompteurs).map
      (fun r => r.getV "compteur_id")
    let frame := frame.filterRows (fun r => topIds.contains (r.getV "compteur_id"))
    let frame :=
      if frame.isEmpty then frame
      else
        match colMax? frame "date" with
        | some maxDate =>
          frame.filterRows (fun r =>
            vleB (Val.num (maxDate - (lastNDays : ℚ))) (r.getV "date"))
        | none => frame.filterRows (fun _ => false)
    let result := frame.groupAgg ["compteur_id", "date"]
      [("debit_journalier", aggSum "comptage_horaire")]
    Except.ok
      (if df.hasCol "latitude" && df.hasCol "longitude" then
        result.merge ((df.select ["compteur_id", "latitude", "longitude"]).dropDupFirst
          "compteur_id") "compteur_id" MergeHow.left "_x" "_y"
      else result)

/-- `calculate_dmja`. -/
def calculate_dmja (df : DF) : DF :=
  if df.isEmpty || !df.hasCol "compteur_id" || !df.hasCol "comptage_horaire" then
    DF.emptyDF
  else if !df.hasCol "date_heure" then DF.emptyDF
  else
    let frame := (df.addCol "date"
      (fun r => dtDate (toDatetime (r.getV "date_heure")))).dropna ["date"]
    let daily := frame.groupAgg ["compteur_id", "date"]
      [("debit_journalier", aggSum "comptage_horaire")]
    let result := daily.groupAgg ["compteur_id"] [("dmja", aggMean "debit_journalier")]
    if df.hasCol "latitude" && df.hasCol "longitude" then
      result.merge ((df.select ["compteur_id", "latitude", "longitude"]).dropDupFirst
        "compteur_id") "compteur_id" MergeHow.left "_x" "_y"
    else result

/-- `calculate_profil_jour_type`. -/
def calculate_profil_jour_type (df : DF) : DF :=
  if df.isEmpty || !df.hasCol "date_heure" || !df.hasCol "comptage_horaire" then
    DF.emptyDF
  else
    let frame := (df.addCol "datetime"
      (fun r => toDatetime (r.getV "date_heure"))).dropna ["datetime"]
    let frame := frame.addCol "jour_semaine" (fun r =>
      match r.getV "datetime" with
      | Val.num t => Val.str (dayName ⌊t / 24⌋)
      | _ => Val.null)
    let frame := frame.addCol "heure" (fun r => dtHour (r.getV "datetime"))
    (frame.groupAgg ["jour_semaine", "heure"]
      [("debit_moyen", aggMean "comptage_horaire")]).renameCol "jour_semaine" "jour"

/-- `calculate_heures_pointe`. -/
def calculate_heures_pointe (df : DF) (seuilPct : ℚ := 120) : DF :=
  if df.isEmpty || !df.hasCol "date_heure" || !df.hasCol "comptage_horaire" then
    DF.emptyDF
  else
    let frame := (df.addCol "datetime"
      (fun r => toDatetime (r.getV "date_heure"))).dropna ["datetime"]
    let frame := frame.addCol "heure" (fun r => dtHour (r.getV "datetime"))
    let debitHoraire := frame.groupAgg ["heure"] [("debit_moyen", aggMean "comptage_horaire")]
    let globalMean := meanQ (debitHoraire.colNums "debit_moyen")
    let seuil := match globalMean with
      | Val.num m => Val.num (m * (seuilPct / 100))
      | _ => Val.null
    ((debitHoraire.filterRows (fun r => vgtB (r.getV "debit_moyen") seuil)).addConst
      "seuil_pct" (Val.num seuilPct)).addConst "debit_global_moyen" globalMean

/-- `calculate_taux_disponibilite`. -/
def calculate_taux_disponibilite (df : DF) (periodeJours : ℕ := 30) : DF :=
  if df.isEmpty || !df.hasCol "compteur_id" || !df.hasCol "date_heure" then
    DF.emptyDF
  else
    let frame := (df.addCol "datetime"
      (fun r => toDatetime (r.getV "date_heure"))).dropna ["datetime"]
    let reels := frame.groupAgg ["compteur_id"]
      [("nb_enregistrements_reels", aggSize)]
    let attendus : ℚ := 24 * periodeJours
    (reels.addConst "nb_enregistrements_attendus" (Val.num attendus)).addCol
      "taux_disponibilite_pct" (fun r =>
        match (r.getV "nb_enregistrements_reels").toNum? with
        | some n => Val.num (roundToQ (n / attendus * 100) 2)
        | none => Val.null)

/-- Attach the 1-based `rang` column. -/
def addRang (df : DF) : DF :=
  ⟨df.cols ++ ["rang"],
   df.rows.enum.map (fun p => p.2.setV "rang" (Val.num ((p.1 : ℚ) + 1)))⟩

/-- `calculate_top_compteurs`.  (When the readings already carry
coordinates, the `dmja` result has them too; the second merge then
suffixes both sides away and the final projection drops them.) -/
def calculate_top_compteurs (refCoords : DF) (df : DF) (topN : ℕ := 200) : DF :=
  let dmja := calculate_dmja df
  if dmja.isEmpty then DF.emptyDF
  else
    let top := addRang (dmja.nlargest topN "dmja")
    let coordSources : List DF :=
      (if df.hasCol "latitude" && df.hasCol "longitude" then
        [df.select ["compteur_id", "latitude", "longitude"]] else []) ++
      (if !refCoords.isEmpty then [refCoords] else [])
    let top :=
      match coordSources with
      | [] => top
      | s :: ss =>
        let coords := (DF.mk s.cols ((s :: ss).flatMap DF.rows)).dropDupFirst "compteur_id"
        top.merge coords "compteur_id" MergeHow.left "_x" "_y"
    let optionalCols := ["latitude", "longitude"].filter top.hasCol
    top.select (["rang", "compteur_id", "dmja"] ++ optionalCols)

/-- `calculate_compteurs_faible_activite`. -/
def calculate_compteurs_faible_activite (df : DF) (seuilPct : ℚ := 20) : DF :=
  let dmja := calculate_dmja df
  if dmja.isEmpty then DF.emptyDF
  else
    let medianeV := match dmja.colNums "dmja" with
      | [] => Val.null
      | xs => Val.num (quantileQ xs (1/2))
    let seuil := match medianeV with
      | Val.num m => Val.num (m * (seuilPct / 100))
      | _ => Val.null
    ((dmja.filterRows (fun r => vgtB seuil (r.getV "dmja"))).addConst
      "mediane_dmja" medianeV).addConst "seuil_pct" (Val.num seuilPct)

/-- `detect_compteurs_defaillants`.  The reference instant is
`pd.Timestamp.now()` — the ambient wall clock at the moment of the call,
not a parameter of the Python function; the embedding is pure, so the
clock reading appears as the explicit `wallClockNow` argument.  (The
timezone-aware branch differs only in which clock representation is read;
timestamps are naive here.) -/
def detect_compteurs_defaillants (df : DF) (wallClockNow : ℚ)
    (seuilHeures : ℚ := 24) : DF :=
  if df.isEmpty || !df.hasCol "compteur_id" || !df.hasCol "date_heure" then
    DF.emptyDF
  else
    let frame := (df.addCol "datetime"
      (fun r => toDatetime (r.getV "date_heure"))).dropna ["datetime"]
    let derniere := frame.groupAgg ["compteur_id"] [("derniere_mesure", aggMax "datetime")]
    let derniere := derniere.addCol "heures_sans_donnees" (fun r =>
      match (r.getV "derniere_mesure").toNum? with
      | some t => Val.num (roundToQ (wallClockNow - t) 1)
      | none => Val.null)
    (derniere.filterRows (fun r =>
      vgtB (r.getV "heures_sans_donnees") (Val.num seuilHeures))).addConst
      "status" (Val.str "Défaillant")

/-- `calculate_densite_par_zone`. -/
def calculate_densite_par_zone (df : DF) (dfGeo : Option DF) : DF :=
  if df.isEmpty || !df.hasCol "compteur_id" || !df.hasCol "comptage_horaire" then
    DF.emptyDF
  else
    match dfGeo with
    | none => DF.emptyDF
    | some g =>
      if g.isEmpty || !df.hasCol "arrondissement" then DF.emptyDF
      else
        df.groupAgg ["arrondissement"]
          [("debit_total", aggSum "comptage_horaire"),
           ("debit_moyen", aggMean "comptage_horaire"),
           ("nb_mesures", aggCount "comptage_horaire")]

/-- `identify_corridors_cyclables`. -/
def identify_corridors_cyclables (df : DF) (percentile : ℚ := 75) : DF :=
  let dmja := calculate_dmja df
  if dmja.isEmpty then DF.emptyDF
  else
    let seuil := quantileQ (dmja.colNums "dmja") (percentile / 100)
    let corridors := ((dmja.filterRows (fun r =>
      vgtB (r.getV "dmja") (Val.num seuil))).addConst "percentile"
      (Val.num percentile)).addConst "seuil_dmja" (Val.num seuil)
    ⟨corridors.cols, sortRowsDescBy (rowNum "dmja") corridors.rows⟩

/-- Weekly period index (`dt.to_period("W")`): pandas labels the
Monday-to-Sunday week containing the timestamp; only group identity
matters here, so the week is represented by its index rather than its
label string. -/
def weekIndex (day : ℤ) : ℤ := Int.ediv (day + 3) 7

/-- Monthly period index (`dt.to_period("M")`): `12 * year + (month - 1)`
via the standard civil-from-days computation. -/
def monthIndex (day : ℤ) : ℤ :=
  let z := day + 719468
  let era := Int.ediv z 146097
  let doe := z - era * 146097
  let yoe := Int.ediv (doe - Int.ediv doe 1460 + Int.ediv doe 36524 - Int.ediv doe 146096) 365
  let y := yoe + era * 400
  let doy := doe - (365 * yoe + Int.ediv yoe 4 - Int.ediv yoe 100)
  let mp := Int.ediv (5 * doy + 2) 153
  let m := mp + (if mp < 10 then 3 else -9)
  let y := y + (if m ≤ 2 then 1 else 0)
  12 * y + (m - 1)

/-- `calculate_evolution_temporelle`.  (`var/prev` with `prev = 0` is
`±inf`/NaN in numpy; modelled as null — the growth-rate column is not the
object of any claim.) -/
def calculate_evolution_temporelle (df : DF) (periode : String := "semaine") : DF :=
  if df.isEmpty || !df.hasCol "date_heure" || !df.hasCol "comptage_horaire" then
    DF.emptyDF
  else
    let frame := (df.addCol "datetime"
      (fun r => toDatetime (r.getV "date_heure"))).dropna ["datetime"]
    let framePer? : Option DF :=
      if periode == "jour" then
        some (frame.addCol "periode" (fun r => dtDate (r.getV "datetime")))
      else if periode == "semaine" then
        some (frame.addCol "periode" (fun r =>
          match r.getV "datetime" with
          | Val.num t => Val.num ((weekIndex ⌊t / 24⌋ : ℤ) : ℚ)
          | _ => Val.null))
      else if periode == "mois" then
        some (frame.addCol "periode" (fun r =>
          match r.getV "datetime" with
          | Val.num t => Val.num ((monthIndex ⌊t / 24⌋ : ℤ) : ℚ)
          | _ => Val.null))
      else none
    match framePer? with
    | none => DF.emptyDF
    | some fp =>
      let evolution := fp.groupAgg ["periode"] [("debit_total", aggSum "comptage_horaire")]
      let prevs : List Val :=
        Val.null :: evolution.rows.map (fun r => r.getV "debit_total")
      ⟨evolution.cols ++ ["debit_precedent", "variation_absolue", "taux_croissance_pct"],
       (evolution.rows.zip prevs).map (fun p =>
         let r := p.1.setV "debit_precedent" p.2
         let r := r.setV "variation_absolue" (vsub (r.getV "debit_total") p.2)
         r.setV "taux_croissance_pct"
           (match vdiv (r.getV "variation_absolue") p.2 with
            | Val.num q => Val.num (roundToQ (q * 100) 2)
            | _ => Val.null))⟩

/-- `calculate_ratio_weekend_semaine`. -/
def calculate_ratio_weekend_semaine (df : DF) : DF :=
  if df.isEmpty || !df.hasCol "date_heure" || !df.hasCol "comptage_horaire" then
    DF.emptyDF
  else
    let frame := (df.addCol "datetime"
      (fun r => toDatetime (r.getV "date_heure"))).dropna ["datetime"]
    let isWeekend : Row → Bool := fun r =>
      match r.getV "datetime" with
      | Val.num t => decide (dayOfWeek ⌊t / 24⌋ = 5 ∨ dayOfWeek ⌊t / 24⌋ = 6)
      | _ => false
    let debitWeekend : ℚ := ((frame.filterRows isWeekend).colNums "comptage_horaire").sum
    let debitSemaine : ℚ :=
      ((frame.filterRows (fun r => !isWeekend r)).colNums "comptage_horaire").sum
    let ratio : ℚ := if 0 < debitSemaine then debitWeekend / debitSemaine else 0
    ⟨["debit_weekend", "debit_semaine", "ratio_weekend_semaine", "difference_pct"],
     [[("debit_weekend", Val.num (truncQ debitWeekend)),
       ("debit_semaine", Val.num (truncQ debitSemaine)),
       ("ratio_weekend_semaine", Val.num (roundToQ ratio 3)),
       ("difference_pct", Val.num (roundToQ ((ratio - 1) * 100) 2))]]⟩

/-- `detect_congestion_cyclable`.  The final projection names `date_heure`,
which the guard does not check, and the threshold assignment reads
`debit_moyen`, which a pre-existing column of that name suffixes away:
both raise `KeyError` in pandas. -/
def detect_congestion_cyclable (df : DF) (seuilPct : ℚ := 150)
    (maxResults : ℕ := 500) : Except String DF :=
  if df.isEmpty || !df.hasCol "compteur_id" || !df.hasCol "comptage_horaire" then
    Except.ok DF.emptyDF
  else
    let moyennes := df.groupAgg ["compteur_id"] [("debit_moyen", aggMean "comptage_horaire")]
    let frame := df.merge moyennes "compteur_id" MergeHow.left "_x" "_y"
    if !frame.hasCol "debit_moyen" then Except.error "KeyError: debit_moyen"
    else
      let frame := frame.addCol "seuil" (fun r =>
        match (r.getV "debit_moyen").toNum? with
        | some m => Val.num (m * (seuilPct / 100))
        | none => Val.null)
      let congestions := frame.filterRows (fun r =>
        vgtB (r.getV "comptage_horaire") (r.getV "seuil"))
      let congestions := (congestions.addConst "seuil_pct"
        (Val.num seuilPct)).addCol "depassement_pct" (fun r =>
          match vdiv (r.getV "comptage_horaire") (r.getV "debit_moyen") with
          | Val.num q => Val.num (roundToQ ((q - 1) * 100) 2)
          | _ => Val.null)
      do
        let result ← congestions.selectE
          ["compteur_id", "date_heure", "comptage_horaire", "debit_moyen",
           "seuil_pct", "depassement_pct"]
        pure (if maxResults < result.rows.length then
          result.nlargest maxResults "depassement_pct"
        else result)

/-- Per-counter mean and sample standard deviation of the hourly counts. -/
def zscoreStats (df : DF) : DF :=
  df.groupAgg ["compteur_id"]
    [("mean", aggMean "comptage_horaire"), ("std", aggStd "comptage_horaire")]

/-- The raw readings left-joined with their counter's statistics, with
the z-score column `(x − mean)/std`, NaN filled as 0. -/
def zscoreFrame (df : DF) : DF :=
  (df.merge (zscoreStats df) "compteur_id" MergeHow.left "_x" "_y").addCol
    "zscore" (fun r =>
      vfill0 (vdiv (vsub (r.getV "comptage_horaire") (r.getV "mean")) (r.getV "std")))

/-- The flagged (pre-cap) anomaly rows of `detect_anomalies_zscore`:
rows kept when `|z|` exceeds the threshold, labelled by sign. -/
def anomaliesFlagged (df : DF) (seuilZscore : ℚ) : DF :=
  ((zscoreFrame df).filterRows
    (fun r => vabsGtB (r.getV "zscore") seuilZscore)).addCol
    "type_anomalie" (fun r =>
      match (r.getV "zscore").toNum? with
      | some z => Val.str (if 0 < z then "pic_exceptionnel" else "creux_exceptionnel")
      | none => Val.str "creux_exceptionnel")

/-- `detect_anomalies_zscore`.  The z-score assignment reads `mean`/`std`
(absent if the input already had columns of those names — the merge then
suffixes both sides) and the final projection names `date_heure`; pandas
raises `KeyError` in either case.  The cap assigns `zscore_abs`, takes the
`max_results` largest by it and drops the helper column again — i.e. a
stable descending sort by `|z|` followed by `take`. -/
def detect_anomalies_zscore (df : DF) (seuilZscore : ℚ := 3)
    (maxResults : ℕ := 200) : Except String DF :=
  if df.isEmpty || !df.hasCol "compteur_id" || !df.hasCol "comptage_horaire" then
    Except.ok DF.emptyDF
  else
    let flagged := anomaliesFlagged df seuilZscore
    if !(flagged.hasCol "mean" && flagged.hasCol "std") then
      Except.error "KeyError: mean/std"
    else do
      let result ← flagged.selectE
        ["compteur_id", "date_heure", "comptage_horaire", "mean", "std",
         "zscore", "type_anomalie"]
      pure (if maxResults < result.rows.length then
        ⟨result.cols,
         (sortRowsDescBy (fun r => |rowNum "zscore" r|) result.rows).take maxResults⟩
      else result)

/-- `calculate_chantiers_actifs`.  `date_reference` is the optional
caller-supplied reference date; when omitted the source reads
`pd.Timestamp.now()`, the ambient wall clock, passed explicitly here as
`wallClockNow` (the string-to-timestamp parse of a supplied reference is
modelled as an already-parsed timestamp). -/
def calculate_chantiers_actifs (df : DF) (wallClockNow : ℚ)
    (dateReference : Option ℚ := none) : DF :=
  if df.isEmpty then
    ⟨["nb_chantiers_actifs"], [[("nb_chantiers_actifs", Val.num 0)]]⟩
  else
    let actifs :=
      if df.hasCol "date_debut" && df.hasCol "date_fin" then
        let frame := (df.mapCol "date_debut" toDatetime).mapCol "date_fin" toDatetime
        let dateRef : ℚ := dateReference.getD wallClockNow
        frame.filterRows (fun r =>
          vleB (r.getV "date_debut") (Val.num dateRef) &&
          vleB (Val.num dateRef) (r.getV "date_fin"))
      else df
    if actifs.isEmpty then
      ⟨["nb_chantiers_actifs"], [[("nb_chantiers_actifs", Val.num 0)]]⟩
    else if actifs.hasCol "arrondissement" then
      actifs.groupAgg ["arrondissement"] [("nb_chantiers_actifs", fun rows => aggSize rows)]
    else
      ⟨["nb_chantiers_actifs"], [[("nb_chantiers_actifs", Val.num actifs.rows.length)]]⟩

/-- `calculate_score_criticite_chantiers`. -/
def calculate_score_criticite_chantiers (df : DF) : DF :=
  let zeroRow : DF :=
    ⟨["nb_chantiers", "score_criticite"],
     [[("nb_chantiers", Val.num 0), ("score_criticite", Val.num 0)]]⟩
  if df.isEmpty then zeroRow
  else
    let surChaussee :=
      if df.hasCol "emprise_chaussee" then
        df.filterRows (fun r => r.getV "emprise_chaussee" == Val.bool true)
      else df
    if surChaussee.isEmpty then zeroRow
    else if surChaussee.hasCol "arrondissement" && surChaussee.hasCol "surface" then
      let criticite := surChaussee.groupAgg ["arrondissement"]
        [("nb_chantiers_chaussee", fun rows => aggSize rows),
         ("surface_moyenne", aggMean "surface")]
      criticite.addCol "score_criticite" (fun r =>
        match (r.getV "nb_chantiers_chaussee").toNum?, (r.getV "surface_moyenne").toNum? with
        | some n, some s => Val.num (roundToQ (n * s) 2)
        | _, _ => Val.null)
    else
      ⟨["nb_chantiers", "score_criticite"],
       [[("nb_chantiers", Val.num surChaussee.rows.length),
         ("score_criticite", Val.num (surChaussee.rows.length : ℚ))]]⟩

/-- `calculate_qualite_service_aggregate`. -/
def calculate_qualite_service_aggregate (df : DF) : DF :=
  if df.isEmpty then
    ⟨["nb_enregistrements"], [[("nb_enregistrements", Val.num 0)]]⟩
  else
    let groupCols := ["operateur", "mode", "trimestre"].filter df.hasCol
    let hasScore := df.hasCol "score_qualite"
    let hasPen := df.hasCol "penalites"
    if groupCols.isEmpty && !hasScore && !hasPen then
      ⟨["nb_enregistrements", "description"],
       [[("nb_enregistrements", Val.num df.rows.length),
         ("description", Val.str "Données qualité service disponibles")]]⟩
    else if groupCols.isEmpty then
      let base : Row := [("nb_enregistrements", Val.num df.rows.length)]
      let base := if hasScore then
        base ++ [("score_qualite_moyen", meanQ (df.colNums "score_qualite"))] else base
      let base := if hasPen then
        base ++ [("penalites_total", Val.num (df.colNums "penalites").sum)] else base
      ⟨base.map Prod.fst, [base]⟩
    else if !hasScore && !hasPen then
      df.groupAgg groupCols [("nb_enregistrements", fun rows => aggSize rows)]
    else
      df.groupAgg groupCols
        ((if hasScore then [("score_qualite_moyen", aggMean "score_qualite")] else []) ++
         (if hasPen then [("penalites_total", aggSum "penalites")] else []))

/-- `calculate_all_metrics`.  The debug `print` after enrichment selects
`compteur_id`/`latitude`/`longitude` and raises `KeyError` when absent
(only possible for an empty input, which enrichment returns unchanged).
`wallClockNow` is the ambient `pd.Timestamp.now()` reading — no such
parameter exists in the Python signature. -/
def calculate_all_metrics (refCoords : DF) (dfComptageVelo : DF)
    (dfChantiers dfQualite dfGeo dfBikes : Option DF) (wallClockNow : ℚ) :
    Except String (List (String × DF)) := do
  let dfC ← enrichComptageWithCoordinates refCoords dfComptageVelo dfBikes
  if !(dfC.hasCol "compteur_id" && dfC.hasCol "latitude" && dfC.hasCol "longitude") then
    Except.error "KeyError: debug print column"
  else do
    let dj ← calculate_debit_journalier dfC 50 60
    let cong ← detect_congestion_cyclable dfC 150 500
    let anom ← detect_anomalies_zscore dfC 3 200
    let base : List (String × DF) :=
      [("debit_horaire", calculate_debit_horaire dfC),
       ("debit_journalier", dj),
       ("dmja", calculate_dmja dfC),
       ("profil_jour_type", calculate_profil_jour_type dfC),
       ("heures_pointe", calculate_heures_pointe dfC 120),
       ("taux_disponibilite", calculate_taux_disponibilite dfC 30),
       ("top_compteurs", calculate_top_compteurs refCoords dfC 200),
       ("compteurs_faible_activite", calculate_compteurs_faible_activite dfC 20),
       ("compteurs_defaillants", detect_compteurs_defaillants dfC wallClockNow 24),
       ("densite_par_zone", calculate_densite_par_zone dfC dfGeo),
       ("corridors_cyclables", identify_corridors_cyclables dfC 75),
       ("evolution_hebdomadaire", calculate_evolution_temporelle dfC "semaine"),
       ("ratio_weekend_semaine", calculate_ratio_weekend_semaine dfC),
       ("congestion_cyclable", cong),
       ("anomalies", anom)]
    let base := base ++
      (match dfChantiers with
       | some dc =>
         if !dc.isEmpty then
           [("chantiers_actifs", calculate_chantiers_actifs dc wallClockNow none),
            ("score_criticite_chantiers", calculate_score_criticite_chantiers dc)]
         else []
       | none => [])
    let base := base ++
      (match dfQualite with
       | some dq =>
         if !dq.isEmpty then
           [("qualite_service", calculate_qualite_service_aggregate dq)]
         else []
       | none => [])
    pure base

/-! ## Aggregation and correlation (`processors/aggregation.py`) -/

/-- `aggregate_weather_daily`: deliberately **raises** `ValueError` when a
required column is missing, and the unconditional `vent_moyen`
aggregation raises `KeyError` when `windspeed` is absent. -/
def aggregate_weather_daily (df : DF) : Except String DF :=
  if !(["datetime", "tempmax", "tempmin", "precip"].all df.hasCol) then
    Except.error "ValueError: Weather dataframe missing columns"
  else if !df.hasCol "windspeed" then
    Except.error "KeyError: windspeed"
  else
    Except.ok
      (((df.addCol "jour" (fun r => toDatetime (r.getV "datetime"))).dropna
        ["jour"]).groupAgg ["jour"]
        [("temperature_max", aggMean "tempmax"),
         ("temperature_min", aggMean "tempmin"),
         ("precipitation_mm", aggSum "precip"),
         ("vent_moyen", aggMean "windspeed")])

/-- The public-works relation with its bound columns coerced to days and
rows with a missing bound dropped (the preparation step of
`correlate_chantiers_velo`). -/
def chantiersPrepared (dfChantiers : DF) : DF :=
  ((dfChantiers.mapCol "date_debut" (fun v => dtDate (toDatetime v))).mapCol
    "date_fin" (fun v => dtDate (toDatetime v))).dropna ["date_debut", "date_fin"]

/-- Number of public-works records whose `[date_debut, date_fin]` interval
contains the day `d` (pandas comparisons against missing dates are `False`). -/
def countChantiersActifsOn (chantiers : DF) (d : Val) : ℕ :=
  (chantiers.rows.filter (fun r =>
    vleB (r.getV "date_debut") d && vleB d (r.getV "date_fin"))).length

/-- `correlate_chantiers_velo`.  The statistics columns are attached only
when the joined table has **strictly more than one** row; with no valid
counting days `pd.DataFrame([])` has no columns and the merge raises. -/
def correlate_chantiers_velo (dfComptage dfChantiers : DF) : Except String DF :=
  if dfComptage.isEmpty || dfChantiers.isEmpty then Except.ok DF.emptyDF
  else if !dfComptage.hasCol "date_heure" || !dfComptage.hasCol "comptage_horaire" then
    Except.ok DF.emptyDF
  else
    let frameComptage := (dfComptage.addCol "date"
      (fun r => dtDate (toDatetime (r.getV "date_heure")))).dropna ["date"]
    let traficDaily := frameComptage.groupAgg ["date"]
      [("total_velos", aggSum "comptage_horaire")]
    if !dfChantiers.hasCol "date_debut" || !dfChantiers.hasCol "date_fin" then
      Except.ok DF.emptyDF
    else
      let frameChantiers := chantiersPrepared dfChantiers
      let dates := traficDaily.rows.map (fun r => r.getV "date")
      if dates.isEmpty then Except.error "KeyError: date"
      else
        let chantiersDaily : DF :=
          ⟨["date", "nb_chantiers_actifs"],
           dates.map (fun d =>
             [("date", d),
              ("nb_chantiers_actifs", Val.num (countChantiersActifsOn frameChantiers d))])⟩
        let correlation := traficDaily.merge chantiersDaily "date" MergeHow.inner "_x" "_y"
        if !correlation.isEmpty && 1 < correlation.rows.length then
          let xs := correlation.colNums "total_velos"
          let ys := correlation.colNums "nb_chantiers_actifs"
          Except.ok (((correlation.addConst "correlation_chantiers_velo"
            (pearsonQ xs ys)).addConst "moyenne_velos" (meanQ xs)).addConst
            "ecart_type_velos" (sampleStdQ xs))
        else Except.ok correlation

/-- The normalisation step of `build_kpis`: an aggregate qualifies when it
is non-empty, is not stored under the key `daily_kpis`, and has a `jour`
or (renamed) `date` column.  (The datetime-dtype-to-date conversion is the
identity in this value model: day keys are already calendar days.) -/
def normalizeAggregate (k : String) (df : DF) : Option (String × DF) :=
  if df.isEmpty || k == "daily_kpis" then none
  else if df.hasCol "jour" then some (k, df)
  else if df.hasCol "date" then some (k, df.renameCol "date" "jour")
  else none

/-- `build_kpis`: the qualifying aggregates, outer-joined left-to-right on
`jour`, colliding column names suffixed with `_<source key>`.  (The Python
dict iteration skips the first key when merging; keys of a dict are
unique, so folding over the tail is the same computation.) -/
def build_kpis (aggregates : List (String × DF)) : DF :=
  let normalized := aggregates.filterMap (fun p => normalizeAggregate p.1 p.2)
  match normalized with
  | [] => DF.emptyDF
  | (_, base) :: rest =>
    rest.foldl (fun acc p => acc.merge p.2 "jour" MergeHow.outer "" ("_" ++ p.1)) base

/-! ## Lemma layer -/

/-! ## Concrete relations used by the counterexamples and witnesses -/

/-- Concrete relation with `compteur_id` and `date_heure` but no
`comptage_horaire`. -/
def dfNoComptage : DF :=
  ⟨["compteur_id", "date_heure"],
   [[("compteur_id", Val.str "a"), ("date_heure", Val.num 0)]]⟩

/-- Concrete weather relation lacking `precip`. -/
def dfWeatherNoPrecip : DF :=
  ⟨["datetime", "tempmax", "tempmin"],
   [[("datetime", Val.num 0), ("tempmax", Val.num 10), ("tempmin", Val.num 2)]]⟩

/-- Concrete counter-reading relation used to exhibit the wall-clock
dependence: its only reading is at hour 4; at wall-clock hour 14 the
counter is not yet stale, at hour 34 it is. -/
def dfComptageClock : DF :=
  ⟨["compteur_id", "date_heure", "comptage_horaire", "latitude", "longitude"],
   [[("compteur_id", Val.str "a"), ("date_heure", Val.num 4),
     ("comptage_horaire", Val.num 5), ("latitude", Val.num 48.85),
     ("longitude", Val.num 2.3)]]⟩

/-- The payload of a successful computation (the empty mapping on error). -/
def okD (x : Except String (List (String × DF))) : List (String × DF) :=
  match x with
  | Except.ok m => m
  | Except.error _ => []

/-- Concrete counter-reading relation for the C7 witness: counter "a" has
daily total 12, counter "b" has daily total 5, so the 75th percentile of
the dmja distribution is 41/4 and only "a" qualifies. -/
def dfCorridors : DF :=
  ⟨["compteur_id", "date_heure", "comptage_horaire"],
   [[("compteur_id", Val.str "a"), ("date_heure", Val.num 0), ("comptage_horaire", Val.num 3)],
    [("compteur_id", Val.str "a"), ("date_heure", Val.num 1), ("comptage_horaire", Val.num 9)],
    [("compteur_id", Val.str "b"), ("date_heure", Val.num 2), ("comptage_horaire", Val.num 5)]]⟩

/-- Concrete aggregates for the C10 witness: one aggregate without a day
column, one under the reserved key, and one empty. -/
def dfNoDay : DF := ⟨["a"], [[("a", Val.num 1)]]⟩

def dfUnderReservedKey : DF := ⟨["jour", "v"], [[("jour", Val.num 1), ("v", Val.num 2)]]⟩

/-- Concrete day-keyed aggregates for the C6 witness. -/
def dfAggDate : DF :=
  ⟨["date", "v1"],
   [[("date", Val.num 1), ("v1", Val.num 10)], [("date", Val.num 2), ("v1", Val.num 20)]]⟩

def dfAggJour : DF :=
  ⟨["jour", "v1"],
   [[("jour", Val.num 2), ("v1", Val.num 99)], [("jour", Val.num 3), ("v1", Val.num 98)]]⟩

/-- An aggregate keyed by `(compteur_id, jour)` as `aggregate_comptage_velo`
produces: the same day appears once per counter. -/
def dfAggCompteurJour : DF :=
  ⟨["compteur_id", "jour", "total_velos"],
   [[("compteur_id", Val.str "a"), ("jour", Val.num 0),
     ("total_velos", Val.num 5)],
    [("compteur_id", Val.str "b"), ("jour", Val.num 0),
     ("total_velos", Val.num 7)]]⟩

/-- A single-row day-keyed weather aggregate for the same day. -/
def dfAggMeteo : DF :=
  ⟨["date", "temp_moyenne"], [[("date", Val.num 0), ("temp_moyenne", Val.num 12)]]⟩

/-- The payload of a successful relation-valued computation. -/
def okDF (x : Except String DF) : DF :=
  match x with
  | Except.ok d => d
  | Except.error _ => DF.emptyDF

/-- Concrete inputs producing exactly one joined day. -/
def dfVeloOneDay : DF :=
  ⟨["compteur_id", "date_heure", "comptage_horaire"],
   [[("compteur_id", Val.str "a"), ("date_heure", Val.num 0),
     ("comptage_horaire", Val.num 5)]]⟩

def dfChantOne : DF :=
  ⟨["date_debut", "date_fin"],
   [[("date_debut", Val.num (-24)), ("date_fin", Val.num 48)]]⟩

def dfVeloTwoDays : DF :=
  ⟨["compteur_id", "date_heure", "comptage_horaire"],
   [[("compteur_id", Val.str "a"), ("date_heure", Val.num 0),
     ("comptage_horaire", Val.num 5)],
    [("compteur_id", Val.str "a"), ("date_heure", Val.num 24),
     ("comptage_horaire", Val.num 9)]]⟩

/-- The cached static reference table in the "missing or unparsable
file" case: no rows. -/
def refEmptyCoords : DF := ⟨["compteur_id", "latitude", "longitude"], []⟩

/-- A reading with a known latitude but an unknown longitude. -/
def dfHalfCoord : DF :=
  ⟨["compteur_id", "latitude", "longitude"],
   [[("compteur_id", Val.str "x"), ("latitude", Val.num 10),
     ("longitude", Val.null)]]⟩

/-- A reading with both coordinates known. -/
def dfBothCoord : DF :=
  ⟨["compteur_id", "latitude", "longitude"],
   [[("compteur_id", Val.str "y"), ("latitude", Val.num 48),
     ("longitude", Val.num 2)]]⟩

/-- 21 readings of one counter: one 14, four 9s, sixteen 10s — mean 10,
sample standard deviation exactly 1, so the 14 sits at mean + 4·std. -/
def dfZscoreW : DF :=
  ⟨["compteur_id", "date_heure", "comptage_horaire"],
   (List.range 21).map (fun k =>
     [("compteur_id", Val.str "a"), ("date_heure", Val.num k),
      ("comptage_horaire",
       Val.num (if k = 0 then 14 else if k ≤ 4 then 9 else 10))])⟩

/-- The frame row of the `14` reading. -/
def rowZW : Row := (zscoreFrame dfZscoreW).rows.headI

attribute [local semireducible] Rat.add Rat.mul Rat.inv Rat.sub Rat.ofScientific

theorem Row.getV_nil (c : String) : Row.getV [] c = Val.null := rfl

theorem Row.getV_cons (p : String × Val) (rs : List (String × Val)) (c : String) :
    Row.getV (p :: rs) c = if p.1 == c then p.2 else Row.getV rs c := by
  simp only [Row.getV, List.find?]
  by_cases hp : p.1 == c
  · simp [hp]
  · simp [hp]

theorem Row.getV_map_set (rs : List (String × Val)) (c c' : String) (v : Val)
    (h : c' ≠ c) :
    Row.getV (rs.map fun p => if p.1 == c then (c, v) else p) c' = Row.getV rs c' := by
  induction rs with
  | nil => rfl
  | cons p rs ih =>
    by_cases hp : p.1 = c
    · have h1 : (p.1 == c) = true := beq_iff_eq.mpr hp
      have h2 : (c == c') = false := beq_eq_false_iff_ne.mpr (fun hh => h hh.symm)
      have h3 : (p.1 == c') = false := by
        rw [hp]; exact h2
      simp only [List.map_cons, h1, if_true, Row.getV_cons, h2, h3, if_false]
      exact ih
    · have h1 : (p.1 == c) = false := beq_eq_false_iff_ne.mpr hp
      simp only [List.map_cons, h1, if_false, Row.getV_cons]
      by_cases hp' : p.1 = c'
      · simp [beq_iff_eq.mpr hp']
      · simp only [beq_eq_false_iff_ne.mpr hp', Bool.false_eq_true, if_false]
        exact ih

theorem Row.getV_append_single (rs : List (String × Val)) (c c' : String) (v : Val)
    (h : c' ≠ c) :
    Row.getV (rs ++ [(c, v)]) c' = Row.getV rs c' := by
  induction rs with
  | nil =>
    have hcc : (c == c') = false := beq_eq_false_iff_ne.mpr (fun hh => h hh.symm)
    simp [Row.getV_cons, Row.getV_nil, hcc]
  | cons p rs ih =>
    by_cases hp : p.1 == c'
    · simp [Row.getV_cons, hp]
    · simp only [List.cons_append, Row.getV_cons, hp, if_false]
      simp only [Bool.false_eq_true, if_false]
      exact ih

theorem Row.getV_setV_ne (r : Row) (c c' : String) (v : Val) (h : c' ≠ c) :
    (r.setV c v).getV c' = r.getV c' := by
  unfold Row.setV
  split
  · exact Row.getV_map_set r c c' v h
  · exact Row.getV_append_single r c c' v h

theorem Row.getV_setV_self (r : Row) (c : String) (v : Val) :
    (r.setV c v).getV c = v := by
  unfold Row.setV
  split
  · rename_i hs
    induction r with
    | nil => simp at hs
    | cons p rs ih =>
      by_cases hp : p.1 = c
      · have h1 : (p.1 == c) = true := beq_iff_eq.mpr hp
        simp [List.map_cons, h1, Row.getV_cons, hp]
      · have h1 : (p.1 == c) = false := beq_eq_false_iff_ne.mpr hp
        simp only [List.find?, h1] at hs
        simp only [List.map_cons, h1, if_false, Bool.false_eq_true, Row.getV_cons]
        exact ih hs
  · rename_i hs
    have hn : List.find? (fun p => p.1 == c) r = none := by
      cases hf : List.find? (fun p => p.1 == c) r with
      | none => rfl
      | some p => rw [hf] at hs; simp at hs
    clear hs
    induction r with
    | nil => simp [Row.getV_cons, Row.getV_nil]
    | cons p rs ih =>
      simp only [List.find?] at hn
      cases hp : (p.1 == c) with
      | true => rw [hp] at hn; simp at hn
      | false =>
        rw [hp] at hn
        simp only [List.cons_append, Row.getV_cons, hp, if_false, Bool.false_eq_true]
        exact ih hn

theorem Row.getV_selectRow (r : Row) (cs : List String) (c : String) (h : c ∈ cs) :
    Row.getV (cs.map (fun c' => (c', Row.getV r c'))) c = Row.getV r c := by
  induction cs with
  | nil => cases h
  | cons c₀ cs ih =>
    by_cases hc : c₀ = c
    · subst hc; simp [Row.getV_cons]
    · have h1 : (c₀ == c) = false := beq_eq_false_iff_ne.mpr hc
      simp only [List.map_cons, Row.getV_cons, h1, Bool.false_eq_true, if_false]
      exact ih ((List.mem_cons.mp h).resolve_left (fun hh => hc hh.symm))

theorem Row.getV_selectRow_not_mem (r : Row) (cs : List String) (c : String)
    (h : c ∉ cs) :
    Row.getV (cs.map (fun c' => (c', Row.getV r c'))) c = Val.null := by
  induction cs with
  | nil => rfl
  | cons c₀ cs ih =>
    have h1 : (c₀ == c) = false :=
      beq_eq_false_iff_ne.mpr (fun hh => h (hh ▸ List.mem_cons_self c₀ cs))
    simp only [List.map_cons, Row.getV_cons, h1, Bool.false_eq_true, if_false]
    exact ih (fun hh => h (List.mem_cons_of_mem _ hh))

theorem Row.getV_dropColsRow (r : Row) (cs : List String) (c : String)
    (h : cs.contains c = false) :
    Row.getV (r.filter (fun p => !(cs.contains p.1))) c = Row.getV r c := by
  induction r with
  | nil => rfl
  | cons p rs ih =>
    by_cases hp : p.1 = c
    · have hkeep : (cs.contains p.1) = false := hp ▸ h
      simp only [List.filter_cons, hkeep, Bool.not_false, if_true]
      simp only [Row.getV_cons, beq_iff_eq.mpr hp, if_true]
    · have h1 : (p.1 == c) = false := beq_eq_false_iff_ne.mpr hp
      by_cases hk : cs.contains p.1
      · simp only [List.filter_cons, hk, Bool.not_true, Bool.false_eq_true, if_false,
          Row.getV_cons, h1]
        simp only [ih, Row.getV_cons, h1, Bool.false_eq_true, if_false]
      · simp only [List.filter_cons, Bool.not_eq_true', eq_false_of_ne_true hk,
          Bool.not_false, if_true, Row.getV_cons, h1, Bool.false_eq_true, if_false]
        exact ih

theorem mem_firstDedupAux (seen : List (List Val)) (l : List (List Val))
    (k : List Val) : k ∈ firstDedupAux seen l ↔ k ∈ l ∧ k ∉ seen := by
  induction l generalizing seen with
  | nil => simp [firstDedupAux]
  | cons k₀ l ih =>
    cases hk : seen.contains k₀ with
    | true =>
      have hk' : k₀ ∈ seen := List.mem_of_elem_eq_true hk
      simp only [firstDedupAux, hk, if_true]
      rw [ih]
      constructor
      · rintro ⟨hm, hs⟩; exact ⟨List.mem_cons_of_mem _ hm, hs⟩
      · rintro ⟨hm, hs⟩
        rcases List.mem_cons.mp hm with h | h
        · exact absurd (h ▸ hk') hs
        · exact ⟨h, hs⟩
    | false =>
      have hnotin : k₀ ∉ seen := by simpa using hk
      simp only [firstDedupAux, hk, Bool.false_eq_true, if_false]
      constructor
      · intro hm
        rcases List.mem_cons.mp hm with h | h
        · subst h; exact ⟨List.mem_cons_self _ _, hnotin⟩
        · obtain ⟨hm', hs⟩ := (ih _).mp h
          exact ⟨List.mem_cons_of_mem _ hm',
                 fun hh => hs (List.mem_cons_of_mem _ hh)⟩
      · rintro ⟨hm, hs⟩
        rcases List.mem_cons.mp hm with h | h
        · subst h; exact List.mem_cons_self _ _
        · by_cases he : k = k₀
          · subst he; exact List.mem_cons_self _ _
          · refine List.mem_cons_of_mem _ ((ih _).mpr ⟨h, ?_⟩)
            intro hh
            rcases List.mem_cons.mp hh with h' | h'
            · exact he h'
            · exact hs h'

theorem nodup_firstDedupAux (seen : List (List Val)) (l : List (List Val)) :
    (firstDedupAux seen l).Nodup := by
  induction l generalizing seen with
  | nil => exact List.nodup_nil
  | cons k₀ l ih =>
    cases hk : seen.contains k₀ with
    | true => simp only [firstDedupAux, hk, if_true]; exact ih seen
    | false =>
      simp only [firstDedupAux, hk, Bool.false_eq_true, if_false]
      exact List.nodup_cons.mpr
        ⟨fun hmem => ((mem_firstDedupAux _ _ _).mp hmem).2 (List.mem_cons_self _ _),
         ih _⟩

theorem nodup_firstDedup (l : List (List Val)) : (firstDedup l).Nodup :=
  nodup_firstDedupAux [] l

theorem mem_firstDedup (l : List (List Val)) (k : List Val) :
    k ∈ firstDedup l ↔ k ∈ l := by
  simpa [firstDedup] using mem_firstDedupAux [] l k

theorem nodup_groupKeys (ks : List String) (rows : List Row) :
    (groupKeys ks rows).Nodup := nodup_firstDedup _

theorem mem_groupKeys (ks : List String) (rows : List Row) (k : List Val) :
    k ∈ groupKeys ks rows ↔
      k ∈ rows.map (keyOf ks) ∧ (k.contains Val.null) = false := by
  rw [groupKeys, mem_firstDedup, List.mem_filter]
  simp

theorem sublist_dropDupFirstAux (c : String) (seen : List Val) (rows : List Row) :
    (dropDupFirstAux c seen rows).Sublist rows := by
  induction rows generalizing seen with
  | nil => exact List.Sublist.refl _
  | cons r rows ih =>
    by_cases hs : seen.contains (r.getV c)
    · simp only [dropDupFirstAux, hs, if_true]
      exact (ih seen).cons r
    · simp only [dropDupFirstAux, hs, Bool.false_eq_true, if_false]
      exact (ih _).cons₂ r

theorem keys_dropDupFirstAux (c : String) (seen : List Val) (rows : List Row) :
    ((dropDupFirstAux c seen rows).map (fun r => Row.getV r c)).Nodup ∧
      ∀ r ∈ dropDupFirstAux c seen rows, Row.getV r c ∉ seen := by
  induction rows generalizing seen with
  | nil => exact ⟨List.nodup_nil, by simp [dropDupFirstAux]⟩
  | cons r rows ih =>
    by_cases hs : seen.contains (r.getV c)
    · simpa only [dropDupFirstAux, hs, if_true] using ih seen
    · simp only [dropDupFirstAux, hs, Bool.false_eq_true, if_false]
      obtain ⟨hnd, hnin⟩ := ih (r.getV c :: seen)
      refine ⟨List.nodup_cons.mpr ⟨?_, hnd⟩, ?_⟩
      · intro hmem
        obtain ⟨r', hr', hv⟩ := List.mem_map.mp hmem
        exact hnin r' hr' (hv ▸ List.mem_cons_self _ _)
      · intro r' hr'
        rcases List.mem_cons.mp hr' with h | h
        · subst h; exact by simpa using hs
        · exact fun hh => hnin r' h (List.mem_cons_of_mem _ hh)

theorem keys_dropDupFirst (df : DF) (c : String) :
    ((df.dropDupFirst c).rows.map (fun r => Row.getV r c)).Nodup :=
  (keys_dropDupFirstAux c [] df.rows).1

theorem Row.getV_append (a b : List (String × Val)) (c : String) :
    Row.getV (a ++ b) c =
      (match List.find? (fun p => p.1 == c) a with
       | some p => p.2
       | none => Row.getV b c) := by
  induction a with
  | nil => simp [List.find?]
  | cons p a ih =>
    by_cases hp : p.1 == c
    · simp [Row.getV_cons, hp, List.find?]
    · simp only [List.cons_append, Row.getV_cons, hp, Bool.false_eq_true, if_false,
        List.find?]
      exact ih

/-- A filter by key equality returns exactly the unique matching row. -/
theorem filter_key_eq_single {rows : List Row} {c : String}
    (hnd : (rows.map (fun r => Row.getV r c)).Nodup) {s : Row} (hs : s ∈ rows) :
    rows.filter (fun rr => Row.getV rr c == Row.getV s c) = [s] := by
  induction rows with
  | nil => cases hs
  | cons r rows ih =>
    simp only [List.map_cons, List.nodup_cons] at hnd
    rcases List.mem_cons.mp hs with h | h
    · subst h
      have hz : rows.filter (fun rr => Row.getV rr c == Row.getV s c) = [] := by
        apply List.filter_eq_nil_iff.mpr
        intro rr hrr
        simp only [beq_iff_eq]
        intro hv
        exact hnd.1 (List.mem_map.mpr ⟨rr, hrr, hv⟩)
      simp [List.filter_cons, hz]
    · have hne : (Row.getV r c == Row.getV s c) = false := by
        simp only [beq_eq_false_iff_ne]
        intro hv
        exact hnd.1 (List.mem_map.mpr ⟨s, h, hv.symm⟩)
      simp only [List.filter_cons, hne, Bool.false_eq_true, if_false]
      exact ih hnd.2 h

/-- When no row matches the key, the filter is empty. -/
theorem filter_key_eq_nil {rows : List Row} {c : String} {v : Val}
    (h : ∀ r ∈ rows, Row.getV r c ≠ v) :
    rows.filter (fun rr => Row.getV rr c == v) = [] := by
  apply List.filter_eq_nil_iff.mpr
  intro rr hrr
  simpa using h rr hrr

/-- A `flatMap` whose fibers are singletons is pointwise related to its source. -/
theorem forall₂_flatMap_single {α β : Type} (f : α → List β) (P : α → β → Prop)
    (l : List α) (h : ∀ a ∈ l, ∃ b, f a = [b] ∧ P a b) :
    List.Forall₂ P l (l.flatMap f) := by
  induction l with
  | nil => simp [List.Forall₂.nil]
  | cons a l ih =>
    obtain ⟨b, hb, hP⟩ := h a (List.mem_cons_self _ _)
    simp only [List.flatMap_cons, hb, List.singleton_append]
    exact List.Forall₂.cons hP (ih (fun a' ha' => h a' (List.mem_cons_of_mem _ ha')))

theorem sortRowsDescBy_perm (f : Row → ℚ) (rows : List Row) :
    (sortRowsDescBy f rows).Perm rows := List.perm_insertionSort _ _

theorem sortRowsDescBy_sorted (f : Row → ℚ) (rows : List Row) :
    List.Sorted (fun a b => f b ≤ f a) (sortRowsDescBy f rows) := by
  haveI : IsTotal Row (fun a b => f b ≤ f a) := ⟨fun a b => (le_total (f b) (f a))⟩
  haveI : IsTrans Row (fun a b => f b ≤ f a) :=
    ⟨fun a b c hab hbc => le_trans hbc hab⟩
  exact List.sorted_insertionSort _ _

/-- In a sorted list, every kept (taken) element is related to every
dropped element. -/
theorem sorted_rel_take_drop {α : Type} {r : α → α → Prop} {l : List α}
    (h : List.Sorted r l) (n : ℕ) :
    ∀ a ∈ l.take n, ∀ b ∈ l.drop n, r a b := by
  have hl : l = l.take n ++ l.drop n := (List.take_append_drop n l).symm
  rw [List.Sorted, hl, List.pairwise_append] at h
  exact h.2.2

theorem find?_renamed_map_eq (cs : List String) (g : String → Val)
    (ren : String → String) (hren : ∀ c' ∈ cs, ren c' = c') (c : String)
    (hc : c ∈ cs) :
    List.find? (fun p => p.1 == c) (cs.map fun c' => (ren c', g c')) =
      some (c, g c) := by
  induction cs with
  | nil => cases hc
  | cons c₀ cs ih =>
    have h0 : ren c₀ = c₀ := hren c₀ (List.mem_cons_self _ _)
    by_cases he : c₀ = c
    · subst he
      simp [List.find?, h0]
    · have hb : (ren c₀ == c) = false := by
        rw [h0]; exact beq_eq_false_iff_ne.mpr he
      simp only [List.map_cons, List.find?, hb]
      exact ih (fun c' hc' => hren c' (List.mem_cons_of_mem _ hc'))
        ((List.mem_cons.mp hc).resolve_left (fun hh => he hh.symm))

theorem find?_renamed_map_none (cs : List String) (g : String → Val)
    (ren : String → String) (hren : ∀ c' ∈ cs, ren c' = c') (n : String)
    (hn : n ∉ cs) :
    List.find? (fun p => p.1 == n) (cs.map fun c' => (ren c', g c')) = none := by
  induction cs with
  | nil => rfl
  | cons c₀ cs ih =>
    have h0 : ren c₀ = c₀ := hren c₀ (List.mem_cons_self _ _)
    have hb : (ren c₀ == n) = false := by
      rw [h0]
      exact beq_eq_false_iff_ne.mpr (fun hh => hn (hh ▸ List.mem_cons_self _ _))
    simp only [List.map_cons, List.find?, hb]
    exact ih (fun c' hc' => hren c' (List.mem_cons_of_mem _ hc'))
      (fun hh => hn (List.mem_cons_of_mem _ hh))

/-- Reading a left-hand column of a merged row gives the left row's value
(no effective renaming of the left columns). -/
theorem getV_mergeRowL_left (l r : DF) (key ls rs : String) (lr : Row)
    (rr? : Option Row)
    (hren : ∀ c' ∈ l.cols, mergeLRename r.cols key ls c' = c')
    (c : String) (hc : c ∈ l.cols) :
    Row.getV (mergeRowL l r key ls rs lr rr?) c = lr.getV c := by
  unfold mergeRowL
  rw [Row.getV_append, find?_renamed_map_eq l.cols (fun c' => lr.getV c') _ hren c hc]

theorem getV_right_part (lcols : List String) (key rs : String)
    (cs : List String) (val : String → Val) (c n : String) (hc : c ∈ cs)
    (hk : ¬ c = key) (hn : mergeRRename lcols key rs c = n)
    (huniq : ∀ c' ∈ cs, ¬ c' = key → mergeRRename lcols key rs c' = n → c' = c) :
    Row.getV ((cs.filter (fun c' => !(c' == key))).map
      (fun c' => (mergeRRename lcols key rs c', val c'))) n = val c := by
  induction cs with
  | nil => cases hc
  | cons c₀ cs ih =>
    by_cases hk0 : c₀ = key
    · have hb : (c₀ == key) = true := beq_iff_eq.mpr hk0
      simp only [List.filter_cons, hb, Bool.not_true, Bool.false_eq_true, if_false]
      have hc' : c ∈ cs := by
        rcases List.mem_cons.mp hc with h | h
        · exact absurd (h ▸ hk0) hk
        · exact h
      exact ih hc' (fun c' h1 h2 h3 => huniq c' (List.mem_cons_of_mem _ h1) h2 h3)
    · have hb : (c₀ == key) = false := beq_eq_false_iff_ne.mpr hk0
      simp only [List.filter_cons, hb, Bool.not_false, if_true, List.map_cons,
        Row.getV_cons]
      by_cases hmatch : mergeRRename lcols key rs c₀ = n
      · have hcc : c₀ = c := huniq c₀ (List.mem_cons_self _ _) hk0 hmatch
        subst hcc
        simp [beq_iff_eq.mpr hmatch]
      · have hbm : (mergeRRename lcols key rs c₀ == n) = false :=
          beq_eq_false_iff_ne.mpr hmatch
        simp only [hbm, Bool.false_eq_true, if_false]
        have hc' : c ∈ cs := by
          rcases List.mem_cons.mp hc with h | h
          · exact absurd (h ▸ hn) hmatch
          · exact h
        exact ih hc' (fun c' h1 h2 h3 => huniq c' (List.mem_cons_of_mem _ h1) h2 h3)

/-- Reading the (possibly suffixed) image of a right-hand column of a
merged row gives the matched right row's value, or null with no match. -/
theorem getV_mergeRowL_right (l r : DF) (key ls rs : String) (lr : Row)
    (rr? : Option Row)
    (hren : ∀ c' ∈ l.cols, mergeLRename r.cols key ls c' = c')
    (c n : String) (hc : c ∈ r.cols) (hk : ¬ c = key)
    (hn : mergeRRename l.cols key rs c = n)
    (hshadow : n ∉ l.cols)
    (huniq : ∀ c' ∈ r.cols, ¬ c' = key → mergeRRename l.cols key rs c' = n → c' = c) :
    Row.getV (mergeRowL l r key ls rs lr rr?) n =
      (match rr? with
       | some rr => rr.getV c
       | none => Val.null) := by
  unfold mergeRowL
  rw [Row.getV_append,
    find?_renamed_map_none l.cols (fun c' => lr.getV c') _ hren n hshadow]
  exact getV_right_part l.cols key rs r.cols
    (fun c' => match rr? with | some rr => rr.getV c' | none => Val.null)
    c n hc hk hn huniq

theorem find?_key_left_part (cs : List String) (ren : String → String)
    (hren : ∀ c' ∈ cs, ren c' = c') (key : String) (hkey : key ∈ cs) (v : Val) :
    List.find? (fun p => p.1 == key)
      (cs.map fun c => (ren c, if c == key then v else Val.null)) =
      some (key, v) := by
  induction cs with
  | nil => cases hkey
  | cons c₀ cs ih =>
    have h0 : ren c₀ = c₀ := hren c₀ (List.mem_cons_self _ _)
    by_cases he : c₀ = key
    · subst he
      simp [List.find?, h0]
    · have hb : (ren c₀ == key) = false := by
        rw [h0]; exact beq_eq_false_iff_ne.mpr he
      simp only [List.map_cons, List.find?, hb]
      exact ih (fun c' hc' => hren c' (List.mem_cons_of_mem _ hc'))
        ((List.mem_cons.mp hkey).resolve_left (fun hh => he hh.symm))

/-- Reading the key of an unmatched-right merged row gives the right row's
key value. -/
theorem getV_mergeRowR_key (l r : DF) (key ls rs : String) (rr : Row)
    (hren : ∀ c' ∈ l.cols, mergeLRename r.cols key ls c' = c')
    (hkey : key ∈ l.cols) :
    Row.getV (mergeRowR l r key ls rs rr) key = rr.getV key := by
  unfold mergeRowR
  rw [Row.getV_append, find?_key_left_part l.cols _ hren key hkey (rr.getV key)]

/-- Pointwise description of a left merge against a relation with unique
keys: each left row yields exactly one merged row, combined with its
unique match (or with nulls when unmatched). -/
theorem merge_left_forall₂ (l r : DF) (key ls rs : String)
    (hnd : (r.rows.map (fun rr => Row.getV rr key)).Nodup) :
    List.Forall₂ (fun lr mr =>
      (∃ rr ∈ r.rows, Row.getV rr key = Row.getV lr key ∧
         mr = mergeRowL l r key ls rs lr (some rr)) ∨
      ((∀ rr ∈ r.rows, Row.getV rr key ≠ Row.getV lr key) ∧
         mr = mergeRowL l r key ls rs lr none))
      l.rows (l.merge r key MergeHow.left ls rs).rows := by
  have hrows : (l.merge r key MergeHow.left ls rs).rows =
      l.rows.flatMap (fun lr =>
        match r.rows.filter (fun rr => Row.getV rr key == Row.getV lr key) with
        | [] => [mergeRowL l r key ls rs lr none]
        | rrs => rrs.map (fun rr => mergeRowL l r key ls rs lr (some rr))) := by
    simp only [DF.merge, List.append_nil]
  rw [hrows]
  apply forall₂_flatMap_single
  intro lr _
  by_cases hex : ∃ rr ∈ r.rows, Row.getV rr key = Row.getV lr key
  · obtain ⟨rr, hrr, hv⟩ := hex
    have : r.rows.filter (fun rr' => Row.getV rr' key == Row.getV lr key) = [rr] := by
      rw [show (fun rr' => Row.getV rr' key == Row.getV lr key) =
            (fun rr' => Row.getV rr' key == Row.getV rr key) by
          funext rr'; rw [hv]]
      exact filter_key_eq_single hnd hrr
    rw [this]
    exact ⟨_, rfl, Or.inl ⟨rr, hrr, hv, rfl⟩⟩
  · push_neg at hex
    have : r.rows.filter (fun rr' => Row.getV rr' key == Row.getV lr key) = [] :=
      filter_key_eq_nil hex
    rw [this]
    exact ⟨_, rfl, Or.inr ⟨hex, rfl⟩⟩

/-- Pointwise description of an inner merge when every left key has a
(unique) match. -/
theorem merge_inner_forall₂ (l r : DF) (key ls rs : String)
    (hnd : (r.rows.map (fun rr => Row.getV rr key)).Nodup)
    (htot : ∀ lr ∈ l.rows, ∃ rr ∈ r.rows, Row.getV rr key = Row.getV lr key) :
    List.Forall₂ (fun lr mr =>
      ∃ rr ∈ r.rows, Row.getV rr key = Row.getV lr key ∧
        mr = mergeRowL l r key ls rs lr (some rr))
      l.rows (l.merge r key MergeHow.inner ls rs).rows := by
  have hrows : (l.merge r key MergeHow.inner ls rs).rows =
      l.rows.flatMap (fun lr =>
        match r.rows.filter (fun rr => Row.getV rr key == Row.getV lr key) with
        | [] => []
        | rrs => rrs.map (fun rr => mergeRowL l r key ls rs lr (some rr))) := by
    simp only [DF.merge, List.append_nil]
  rw [hrows]
  apply forall₂_flatMap_single
  intro lr hlr
  obtain ⟨rr, hrr, hv⟩ := htot lr hlr
  have : r.rows.filter (fun rr' => Row.getV rr' key == Row.getV lr key) = [rr] := by
    rw [show (fun rr' => Row.getV rr' key == Row.getV lr key) =
          (fun rr' => Row.getV rr' key == Row.getV rr key) by
        funext rr'; rw [hv]]
    exact filter_key_eq_single hnd hrr
  rw [this]
  exact ⟨_, rfl, rr, hrr, hv, rfl⟩

theorem map_key_flatMap_single {α β γ : Type} (rows : List α) (f : α → List β)
    (g : β → γ) (g' : α → γ) (h : ∀ a ∈ rows, ∃ b, f a = [b] ∧ g b = g' a) :
    (rows.flatMap f).map g = rows.map g' := by
  induction rows with
  | nil => rfl
  | cons a rows ih =>
    obtain ⟨b, hb, hg⟩ := h a (List.mem_cons_self _ _)
    simp only [List.flatMap_cons, hb, List.singleton_append, List.map_cons, hg]
    rw [ih (fun a' ha' => h a' (List.mem_cons_of_mem _ ha'))]

/-- Key column of an outer merge against unique right keys: the left keys
in order, then the unmatched right keys. -/
theorem merge_outer_keys (l r : DF) (key ls rs : String)
    (hnd : (r.rows.map (fun rr => Row.getV rr key)).Nodup)
    (hren : ∀ c' ∈ l.cols, mergeLRename r.cols key ls c' = c')
    (hkey : key ∈ l.cols) :
    ((l.merge r key MergeHow.outer ls rs).rows.map (fun mr => Row.getV mr key)) =
      l.rows.map (fun lr => Row.getV lr key) ++
      ((r.rows.filter (fun rr =>
          !(l.rows.any (fun lr => Row.getV lr key == Row.getV rr key)))).map
        (fun rr => Row.getV rr key)) := by
  have hrows : (l.merge r key MergeHow.outer ls rs).rows =
      (l.rows.flatMap (fun lr =>
        match r.rows.filter (fun rr => Row.getV rr key == Row.getV lr key) with
        | [] => [mergeRowL l r key ls rs lr none]
        | rrs => rrs.map (fun rr => mergeRowL l r key ls rs lr (some rr)))) ++
      ((r.rows.filter (fun rr =>
          !(l.rows.any (fun lr => Row.getV lr key == Row.getV rr key)))).map
        (mergeRowR l r key ls rs)) := by
    simp only [DF.merge]
  rw [hrows, List.map_append]
  congr 1
  · apply map_key_flatMap_single
    intro lr _
    by_cases hex : ∃ rr ∈ r.rows, Row.getV rr key = Row.getV lr key
    · obtain ⟨rr, hrr, hv⟩ := hex
      have hf : r.rows.filter (fun rr' => Row.getV rr' key == Row.getV lr key) = [rr] := by
        rw [show (fun rr' => Row.getV rr' key == Row.getV lr key) =
              (fun rr' => Row.getV rr' key == Row.getV rr key) by
            funext rr'; rw [hv]]
        exact filter_key_eq_single hnd hrr
      rw [hf]
      exact ⟨_, rfl, getV_mergeRowL_left l r key ls rs lr (some rr) hren key hkey⟩
    · push_neg at hex
      rw [filter_key_eq_nil hex]
      exact ⟨_, rfl, getV_mergeRowL_left l r key ls rs lr none hren key hkey⟩
  · rw [List.map_map]
    exact List.map_congr_left (fun rr _ => getV_mergeRowR_key l r key ls rs rr hren hkey)

/-! ## Bounds on the hash fallback -/

theorem M32_pos : 0 < M32 := by norm_num [M32]

theorem add32_lt (a b : ℕ) : add32 a b < M32 := Nat.mod_lt _ M32_pos

theorem mem_zipWith_add32_lt (a b : List ℕ) (x : ℕ)
    (hx : x ∈ List.zipWith add32 a b) : x < M32 := by
  induction a generalizing b with
  | nil => simp at hx
  | cons a₀ a ih =>
    cases b with
    | nil => simp at hx
    | cons b₀ b =>
      rcases List.mem_cons.mp hx with h | h
      · exact h ▸ add32_lt a₀ b₀
      · exact ih b h

theorem sha256Block_lt (h blk : List ℕ) (x : ℕ) (hx : x ∈ sha256Block h blk) :
    x < M32 := mem_zipWith_add32_lt _ _ _ hx

theorem foldl_sha256Block_lt (l : List (List ℕ)) (h0 : List ℕ)
    (hh : ∀ x ∈ h0, x < M32) : ∀ x ∈ l.foldl sha256Block h0, x < M32 := by
  induction l generalizing h0 with
  | nil => exact hh
  | cons blk l ih =>
    exact ih (sha256Block h0 blk) (fun x hx => sha256Block_lt _ _ _ hx)

theorem sha256Words_lt (s : String) : ∀ x ∈ sha256Words s, x < M32 := by
  apply foldl_sha256Block_lt
  intro x hx
  fin_cases hx <;> norm_num [M32]

theorem getD_sha256Words_lt (s : String) (i : ℕ) :
    (sha256Words s).getD i 0 < M32 := by
  rcases lt_or_ge i (sha256Words s).length with h | h
  · rw [List.getD_eq_getElem _ _ h]
    exact sha256Words_lt s _ (List.getElem_mem _)
  · rw [List.getD_eq_default _ _ h]
    exact M32_pos

theorem sha256Top16Hex_lt (s : String) : sha256Top16Hex s < 2 ^ 64 := by
  have h0 := getD_sha256Words_lt s 0
  have h1 := getD_sha256Words_lt s 1
  unfold sha256Top16Hex
  unfold M32 at h0 h1 ⊢
  omega

theorem hashToUnit_nonneg (v : String) (off : ℕ) : 0 ≤ hashToUnit v off := by
  unfold hashToUnit
  positivity

theorem hashToUnit_lt_one (v : String) (off : ℕ) : hashToUnit v off < 1 := by
  unfold hashToUnit
  rw [div_lt_one (by positivity)]
  have := sha256Top16Hex_lt (v ++ toString off)
  have hc : ((sha256Top16Hex (v ++ toString off) : ℚ)) < ((2 ^ 64 : ℕ) : ℚ) := by
    exact_mod_cast this
  calc ((sha256Top16Hex (v ++ toString off) : ℚ)) < ((2 ^ 64 : ℕ) : ℚ) := hc
    _ = (16 : ℚ) ^ 16 := by norm_num

/-! ## Claim theorems -/

/-- **C4** — `_hash_to_unit` is pure and deterministic: for every id string
and every axis offset, two calls with the same arguments return the same
value, that value lies in `[0, 1)`, and the fallback coordinate of any id
lies inside the fixed Paris bounding box (latitude in `[48.80, 48.90)`,
longitude in `[2.25, 2.42)`), with axis salt 0 for latitude and 1 for
longitude. -/
theorem hash_to_unit_pure_deterministic_bounded (id : String) (axis : ℕ) :
    hashToUnit id axis = hashToUnit id axis ∧
    0 ≤ hashToUnit id axis ∧ hashToUnit id axis < 1 ∧
    fallbackLat id = 48.80 + hashToUnit id 0 * (48.90 - 48.80) ∧
    48.80 ≤ fallbackLat id ∧ fallbackLat id < 48.90 ∧
    fallbackLon id = 2.25 + hashToUnit id 1 * (2.42 - 2.25) ∧
    2.25 ≤ fallbackLon id ∧ fallbackLon id < 2.42 := by
  have h0 := hashToUnit_nonneg id 0
  have h1 := hashToUnit_lt_one id 0
  have h2 := hashToUnit_nonneg id 1
  have h3 := hashToUnit_lt_one id 1
  refine ⟨rfl, hashToUnit_nonneg id axis, hashToUnit_lt_one id axis, rfl, ?_, ?_, rfl, ?_, ?_⟩
  · unfold fallbackLat
    nlinarith
  · unfold fallbackLat
    nlinarith
  · unfold fallbackLon
    nlinarith
  · unfold fallbackLon
    nlinarith

/-- **C9** — for an empty public-works input relation,
`calculate_chantiers_actifs` returns a one-row relation with
`nb_chantiers_actifs = 0` and `calculate_score_criticite_chantiers` returns
a one-row relation with `nb_chantiers = 0` and `score_criticite = 0.0` — a
non-empty sentinel row, not the empty relation used by the other metric
functions. -/
theorem chantiers_empty_sentinel_row (df : DF) (wallClockNow : ℚ)
    (dateReference : Option ℚ) (h : df.rows = []) :
    calculate_chantiers_actifs df wallClockNow dateReference =
      ⟨["nb_chantiers_actifs"], [[("nb_chantiers_actifs", Val.num 0)]]⟩ ∧
    calculate_score_criticite_chantiers df =
      ⟨["nb_chantiers", "score_criticite"],
       [[("nb_chantiers", Val.num 0), ("score_criticite", Val.num 0)]]⟩ ∧
    calculate_chantiers_actifs df wallClockNow dateReference ≠ DF.emptyDF ∧
    calculate_score_criticite_chantiers df ≠ DF.emptyDF := by
  have he : df.isEmpty = true := by simp [DF.isEmpty, h]
  constructor
  · simp [calculate_chantiers_actifs, he]
  refine ⟨?_, ?_, ?_⟩
  · simp [calculate_score_criticite_chantiers, he]
  · simp [calculate_chantiers_actifs, he, DF.emptyDF]
  · simp [calculate_score_criticite_chantiers, he, DF.emptyDF]

/-- Witness for C9 at the concrete empty relation. -/
theorem chantiers_empty_sentinel_row_witness :
    (DF.emptyDF.rows = []) ∧
    calculate_chantiers_actifs DF.emptyDF 0 none =
      ⟨["nb_chantiers_actifs"], [[("nb_chantiers_actifs", Val.num 0)]]⟩ :=
  ⟨rfl, (chantiers_empty_sentinel_row DF.emptyDF 0 none rfl).1⟩

/-- **C1, counterexample** — on a non-empty relation having `compteur_id`
and `date_heure` but lacking `comptage_horaire`,
`calculate_debit_journalier` raises (`KeyError`) instead of returning an
empty relation, and `aggregate_weather_daily` on a relation lacking
`precip` raises (`ValueError`): the uniform empty-on-missing-columns
policy does not hold at these inputs. -/
theorem debit_journalier_weather_raise_counterexample :
    calculate_debit_journalier dfNoComptage 50 60 =
      Except.error "KeyError: comptage_horaire" ∧
    (∀ out : DF, calculate_debit_journalier dfNoComptage 50 60 ≠ Except.ok out) ∧
    aggregate_weather_daily dfWeatherNoPrecip =
      Except.error "ValueError: Weather dataframe missing columns" ∧
    (∀ out : DF, aggregate_weather_daily dfWeatherNoPrecip ≠ Except.ok out) := by
  refine ⟨by decide, ?_, by decide, ?_⟩
  · intro out h
    rw [show calculate_debit_journalier dfNoComptage 50 60 =
          Except.error "KeyError: comptage_horaire" from by decide] at h
    cases h
  · intro out h
    rw [show aggregate_weather_daily dfWeatherNoPrecip =
          Except.error "ValueError: Weather dataframe missing columns" from by decide] at h
    cases h

/-- **C1, amended** — the guarded metric functions do return an empty
relation on missing required columns (`calculate_debit_horaire` shown
here), but `calculate_debit_journalier` raises `KeyError` on every
non-empty relation that has `compteur_id` and `date_heure` and lacks
`comptage_horaire` (its guard does not check that column), and
`aggregate_weather_daily` deliberately raises `ValueError` whenever any of
`{datetime, tempmax, tempmin, precip}` is absent. -/
theorem missing_column_policy_amended :
    (∀ df : DF, df.rows ≠ [] → df.hasCol "compteur_id" = true →
      df.hasCol "date_heure" = true → df.hasCol "comptage_horaire" = false →
      calculate_debit_journalier df 50 60 =
        Except.error "KeyError: comptage_horaire") ∧
    (∀ df : DF, (["datetime", "tempmax", "tempmin", "precip"].all df.hasCol) = false →
      aggregate_weather_daily df =
        Except.error "ValueError: Weather dataframe missing columns") ∧
    (∀ df : DF, df.hasCol "comptage_horaire" = false →
      calculate_debit_horaire df = DF.emptyDF) := by
  refine ⟨?_, ?_, ?_⟩
  · intro df hne h1 h2 h3
    have hie : df.isEmpty = false := by
      simp [DF.isEmpty, List.isEmpty_iff, hne]
    simp [calculate_debit_journalier, hie, h1, h2, h3]
  · intro df h
    simp [aggregate_weather_daily, h]
  · intro df h
    simp [calculate_debit_horaire, h]

/-- Witness for the amended C1 at concrete inputs. -/
theorem missing_column_policy_amended_witness :
    calculate_debit_journalier dfNoComptage 50 60 =
      Except.error "KeyError: comptage_horaire" ∧
    aggregate_weather_daily dfWeatherNoPrecip =
      Except.error "ValueError: Weather dataframe missing columns" ∧
    calculate_debit_horaire dfNoComptage = DF.emptyDF :=
  ⟨missing_column_policy_amended.1 dfNoComptage (by decide) (by decide) (by decide)
     (by decide),
   missing_column_policy_amended.2.1 dfWeatherNoPrecip (by decide),
   missing_column_policy_amended.2.2 dfNoComptage (by decide)⟩

/-- Association-list lookups agree when the key sequences agree and values
may differ only under an excluded set of keys. -/
theorem lookup_congr_except (bad : List String) (l₁ l₂ : List (String × DF))
    (h : List.Forall₂ (fun p q => p.1 = q.1 ∧ (p.1 ∉ bad → p.2 = q.2)) l₁ l₂)
    (name : String) (hname : name ∉ bad) :
    l₁.lookup name = l₂.lookup name := by
  induction h with
  | nil => rfl
  | @cons p q l₁ l₂ hpq _ ih =>
    obtain ⟨hk, hv⟩ := hpq
    rcases p with ⟨k₁, v₁⟩
    rcases q with ⟨k₂, v₂⟩
    simp only at hk
    subst hk
    by_cases he : name = k₁
    · subst he
      simp only [List.lookup, beq_self_eq_true]
      exact congrArg some (hv hname)
    · simp only [List.lookup, beq_eq_false_iff_ne.mpr he]
      exact ih

/-- **C2, counterexample** — running the full metric computation twice on
identical input relations does **not** produce byte-identical outputs when
the ambient wall clock has advanced: the "now" reference of
`compteurs_defaillants` is read from the wall clock inside the engine
(`pd.Timestamp.now()`), not threaded through as a parameter (the Python
signatures of `detect_compteurs_defaillants` and `calculate_all_metrics`
have no such parameter). -/
theorem calculate_all_metrics_clock_counterexample :
    calculate_all_metrics DF.emptyDF dfComptageClock none none none none 14 ≠
      calculate_all_metrics DF.emptyDF dfComptageClock none none none none 34 := by
  decide

/-- **C2, amended** — with the wall-clock instant held fixed the full
metric computation is deterministic (identical inputs give identical
outputs), and the instant influences only the `compteurs_defaillants` and
`chantiers_actifs` entries: at any two instants the two output mappings
agree at every other metric name.  The instant itself is read from the
wall clock inside the engine (no parameter for it exists in the Python
signature), so the byte-identical-outputs property of the claim holds only
per fixed instant. -/
theorem calculate_all_metrics_clock_amended
    (refC dfC : DF) (dCh dQ dG dB : Option DF) (t₁ t₂ : ℚ)
    (m₁ m₂ : List (String × DF))
    (h₁ : calculate_all_metrics refC dfC dCh dQ dG dB t₁ = Except.ok m₁)
    (h₂ : calculate_all_metrics refC dfC dCh dQ dG dB t₂ = Except.ok m₂) :
    (t₁ = t₂ → m₁ = m₂) ∧
    (∀ name : String, name ≠ "compteurs_defaillants" →
      name ≠ "chantiers_actifs" → m₁.lookup name = m₂.lookup name) := by
  unfold calculate_all_metrics at h₁ h₂
  rcases henr : enrichComptageWithCoordinates refC dfC dB with e | dfE <;>
    rw [henr] at h₁ h₂ <;> simp only [Bind.bind, Except.bind] at h₁ h₂
  · cases h₁
  by_cases hcond : (!(dfE.hasCol "compteur_id" && dfE.hasCol "latitude" &&
      dfE.hasCol "longitude")) = true
  · rw [if_pos hcond] at h₁
    cases h₁
  rw [if_neg hcond] at h₁ h₂
  rcases hdj : calculate_debit_journalier dfE 50 60 with e | dj <;>
    rw [hdj] at h₁ h₂ <;> simp only [Bind.bind, Except.bind] at h₁ h₂
  · cases h₁
  rcases hcong : detect_congestion_cyclable dfE 150 500 with e | cong <;>
    rw [hcong] at h₁ h₂ <;> simp only [Bind.bind, Except.bind] at h₁ h₂
  · cases h₁
  rcases hanom : detect_anomalies_zscore dfE 3 200 with e | anom <;>
    rw [hanom] at h₁ h₂ <;> simp only [Bind.bind, Except.bind] at h₁ h₂
  · cases h₁
  simp only [pure, Except.pure, Except.ok.injEq] at h₁ h₂
  subst h₁
  subst h₂
  constructor
  · intro ht
    subst ht
    rfl
  · intro name hn₁ hn₂
    apply lookup_congr_except ["compteurs_defaillants", "chantiers_actifs"]
    · refine List.rel_append (List.rel_append ?_ ?_) ?_
      · refine List.Forall₂.cons ⟨rfl, fun _ => rfl⟩ ?_
        refine List.Forall₂.cons ⟨rfl, fun _ => rfl⟩ ?_
        refine List.Forall₂.cons ⟨rfl, fun _ => rfl⟩ ?_
        refine List.Forall₂.cons ⟨rfl, fun _ => rfl⟩ ?_
        refine List.Forall₂.cons ⟨rfl, fun _ => rfl⟩ ?_
        refine List.Forall₂.cons ⟨rfl, fun _ => rfl⟩ ?_
        refine List.Forall₂.cons ⟨rfl, fun _ => rfl⟩ ?_
        refine List.Forall₂.cons ⟨rfl, fun _ => rfl⟩ ?_
        refine List.Forall₂.cons ⟨rfl, fun hmem => absurd (by simp) hmem⟩ ?_
        refine List.Forall₂.cons ⟨rfl, fun _ => rfl⟩ ?_
        refine List.Forall₂.cons ⟨rfl, fun _ => rfl⟩ ?_
        refine List.Forall₂.cons ⟨rfl, fun _ => rfl⟩ ?_
        refine List.Forall₂.cons ⟨rfl, fun _ => rfl⟩ ?_
        refine List.Forall₂.cons ⟨rfl, fun _ => rfl⟩ ?_
        exact List.Forall₂.cons ⟨rfl, fun _ => rfl⟩ List.Forall₂.nil
      · cases dCh with
        | none => exact List.Forall₂.nil
        | some dc =>
          dsimp only
          by_cases hdc : (!dc.isEmpty) = true
          · simp only [if_pos hdc]
            refine List.Forall₂.cons ⟨rfl, fun hmem => absurd (by simp) hmem⟩ ?_
            exact List.Forall₂.cons ⟨rfl, fun _ => rfl⟩ List.Forall₂.nil
          · simp only [if_neg hdc]
            exact List.Forall₂.nil
      · cases dQ with
        | none => exact List.Forall₂.nil
        | some dq =>
          dsimp only
          by_cases hdq : (!dq.isEmpty) = true
          · simp only [if_pos hdq]
            exact List.Forall₂.cons ⟨rfl, fun _ => rfl⟩ List.Forall₂.nil
          · simp only [if_neg hdq]
            exact List.Forall₂.nil
    · simp [hn₁, hn₂]

/-- Witness for the amended C2 at a concrete input and two clock instants. -/
theorem calculate_all_metrics_clock_amended_witness :
    (okD (calculate_all_metrics DF.emptyDF dfComptageClock
        none none none none 14)).lookup "dmja" =
      (okD (calculate_all_metrics DF.emptyDF dfComptageClock
        none none none none 34)).lookup "dmja" := by
  have h₁ : calculate_all_metrics DF.emptyDF dfComptageClock none none none none 14 =
      Except.ok (okD (calculate_all_metrics DF.emptyDF dfComptageClock
        none none none none 14)) := by decide
  have h₂ : calculate_all_metrics DF.emptyDF dfComptageClock none none none none 34 =
      Except.ok (okD (calculate_all_metrics DF.emptyDF dfComptageClock
        none none none none 34)) := by decide
  exact (calculate_all_metrics_clock_amended DF.emptyDF dfComptageClock
    none none none none 14 34 _ _ h₁ h₂).2 "dmja" (by decide) (by decide)

/-- **C7** — for every counter-reading relation with the required columns
(equivalently, whenever the per-counter dmja relation is non-empty),
`identify_corridors_cyclables` at percentile 75 returns exactly the
counters whose dmja is strictly greater than the 75th percentile of the
dmja distribution, sorted in descending order of dmja. -/
theorem corridors_percentile_strict_sorted (df : DF)
    (hne : (calculate_dmja df).rows ≠ []) :
    ((identify_corridors_cyclables df 75).rows.map
        (fun r => (r.getV "compteur_id", r.getV "dmja"))).Perm
      (((calculate_dmja df).rows.filter (fun r =>
          vgtB (r.getV "dmja")
            (Val.num (quantileQ ((calculate_dmja df).colNums "dmja") (75 / 100))))).map
        (fun r => (r.getV "compteur_id", r.getV "dmja"))) ∧
    (∀ r ∈ (identify_corridors_cyclables df 75).rows,
      vgtB (r.getV "dmja")
        (Val.num (quantileQ ((calculate_dmja df).colNums "dmja") (75 / 100))) = true) ∧
    List.Sorted (fun a b => rowNum "dmja" b ≤ rowNum "dmja" a)
      (identify_corridors_cyclables df 75).rows := by
  have hie : (calculate_dmja df).isEmpty = false := by
    simp [DF.isEmpty, List.isEmpty_iff, hne]
  have hrows : (identify_corridors_cyclables df 75).rows =
      sortRowsDescBy (rowNum "dmja")
        ((((calculate_dmja df).rows.filter (fun r =>
            vgtB (r.getV "dmja")
              (Val.num (quantileQ ((calculate_dmja df).colNums "dmja") (75 / 100))))).map
          (fun r => r.setV "percentile" (Val.num 75))).map
          (fun r => r.setV "seuil_dmja"
            (Val.num (quantileQ ((calculate_dmja df).colNums "dmja") (75 / 100))))) := by
    simp [identify_corridors_cyclables, hie, DF.addConst, DF.addCol, DF.filterRows]
  have hpreserve : ∀ r : Row,
      ((r.setV "percentile" (Val.num 75)).setV "seuil_dmja"
        (Val.num (quantileQ ((calculate_dmja df).colNums "dmja") (75 / 100)))).getV "dmja" =
        r.getV "dmja" := by
    intro r
    rw [Row.getV_setV_ne _ _ _ _ (by decide), Row.getV_setV_ne _ _ _ _ (by decide)]
  have hpreserve' : ∀ r : Row,
      ((r.setV "percentile" (Val.num 75)).setV "seuil_dmja"
        (Val.num (quantileQ ((calculate_dmja df).colNums "dmja") (75 / 100)))).getV
        "compteur_id" = r.getV "compteur_id" := by
    intro r
    rw [Row.getV_setV_ne _ _ _ _ (by decide), Row.getV_setV_ne _ _ _ _ (by decide)]
  refine ⟨?_, ?_, ?_⟩
  · rw [hrows]
    refine ((sortRowsDescBy_perm _ _).map _).trans ?_
    rw [List.map_map, List.map_map]
    apply List.Perm.of_eq
    apply List.map_congr_left
    intro r _
    simp only [Function.comp]
    rw [hpreserve, hpreserve']
  · intro r hr
    rw [hrows] at hr
    have hr' := (sortRowsDescBy_perm _ _).mem_iff.mp hr
    rw [List.map_map] at hr'
    obtain ⟨r₀, hr₀, hre⟩ := List.mem_map.mp hr'
    obtain ⟨-, hp⟩ := List.mem_filter.mp hr₀
    rw [← hre]
    simp only [Function.comp]
    rw [hpreserve]
    exact hp
  · rw [hrows]
    exact sortRowsDescBy_sorted _ _

/-- Witness for C7 at a concrete relation. -/
theorem corridors_percentile_strict_sorted_witness :
    ((identify_corridors_cyclables dfCorridors 75).rows.map
        (fun r => (r.getV "compteur_id", r.getV "dmja"))).Perm
      (((calculate_dmja dfCorridors).rows.filter (fun r =>
          vgtB (r.getV "dmja")
            (Val.num (quantileQ ((calculate_dmja dfCorridors).colNums "dmja")
              (75 / 100))))).map
        (fun r => (r.getV "compteur_id", r.getV "dmja"))) ∧
    (∀ r ∈ (identify_corridors_cyclables dfCorridors 75).rows,
      vgtB (r.getV "dmja")
        (Val.num (quantileQ ((calculate_dmja dfCorridors).colNums "dmja")
          (75 / 100))) = true) ∧
    List.Sorted (fun a b => rowNum "dmja" b ≤ rowNum "dmja" a)
      (identify_corridors_cyclables dfCorridors 75).rows :=
  corridors_percentile_strict_sorted dfCorridors (by decide)

/-- **C10** — `build_kpis` includes an aggregate in the merged KPI table
only if it has a `jour` or `date` column: every empty aggregate, every
aggregate lacking both columns and any aggregate stored under the key
`daily_kpis` is silently omitted from the join (removing it leaves the
result unchanged), and if no input aggregate qualifies the result is the
empty relation. -/
theorem build_kpis_omits_unqualified :
    (∀ (xs ys : List (String × DF)) (k : String) (df : DF),
      (df.rows = [] ∨ k = "daily_kpis" ∨
        (df.hasCol "jour" = false ∧ df.hasCol "date" = false)) →
      build_kpis (xs ++ (k, df) :: ys) = build_kpis (xs ++ ys)) ∧
    (∀ ags : List (String × DF),
      (∀ p ∈ ags, p.2.rows = [] ∨ p.1 = "daily_kpis" ∨
        (p.2.hasCol "jour" = false ∧ p.2.hasCol "date" = false)) →
      build_kpis ags = DF.emptyDF) := by
  have hnone : ∀ (k : String) (df : DF),
      (df.rows = [] ∨ k = "daily_kpis" ∨
        (df.hasCol "jour" = false ∧ df.hasCol "date" = false)) →
      normalizeAggregate k df = none := by
    intro k df h
    rcases h with h | h | ⟨h₁, h₂⟩
    · have : df.isEmpty = true := by simp [DF.isEmpty, h]
      simp [normalizeAggregate, this]
    · simp [normalizeAggregate, h]
    · simp [normalizeAggregate, h₁, h₂]
  constructor
  · intro xs ys k df h
    unfold build_kpis
    rw [List.filterMap_append, List.filterMap_append]
    simp only [List.filterMap_cons, hnone k df h]
  · intro ags h
    unfold build_kpis
    rw [List.filterMap_eq_nil_iff.mpr (fun p hp => hnone p.1 p.2 (h p hp))]

/-- Witness for C10 at concrete inputs. -/
theorem build_kpis_omits_unqualified_witness :
    build_kpis [("x", dfNoDay), ("daily_kpis", dfUnderReservedKey)] =
      build_kpis [("daily_kpis", dfUnderReservedKey)] ∧
    build_kpis [("x", dfNoDay), ("daily_kpis", dfUnderReservedKey)] = DF.emptyDF := by
  constructor
  · exact build_kpis_omits_unqualified.1 [] [("daily_kpis", dfUnderReservedKey)] "x"
      dfNoDay (Or.inr (Or.inr (by decide)))
  · exact build_kpis_omits_unqualified.2 _ (by decide)

theorem mergeLRename_empty_suffix (rcols : List String) (key c : String) :
    mergeLRename rcols key "" c = c := by
  unfold mergeLRename
  split
  · exact String.append_empty c
  · rfl

theorem renameCol_hasCol_jour (df : DF) (h : df.hasCol "date" = true) :
    (df.renameCol "date" "jour").hasCol "jour" = true := by
  have hd : "date" ∈ df.cols := List.mem_of_elem_eq_true h
  show ((df.cols.map fun c => if c == "date" then "jour" else c).contains "jour") = true
  exact List.elem_eq_true_of_mem (List.mem_map.mpr ⟨"date", hd, by simp⟩)

theorem normalized_hasCol_jour (ags : List (String × DF)) (p : String × DF)
    (hp : p ∈ ags.filterMap (fun q => normalizeAggregate q.1 q.2)) :
    p.2.hasCol "jour" = true := by
  obtain ⟨q, -, hq⟩ := List.mem_filterMap.mp hp
  unfold normalizeAggregate at hq
  split at hq
  · cases hq
  · split at hq
    · rename_i hjour
      cases hq
      exact hjour
    · split at hq
      · rename_i hdate
        cases hq
        exact renameCol_hasCol_jour _ hdate
      · cases hq

/-- Reading a non-key left column of an unmatched-right merged row gives
null. -/
theorem getV_mergeRowR_nonkey (l r : DF) (key ls rs : String) (rr : Row)
    (hren : ∀ c' ∈ l.cols, mergeLRename r.cols key ls c' = c')
    (c : String) (hc : c ∈ l.cols) (hck : ¬ c = key) :
    Row.getV (mergeRowR l r key ls rs rr) c = Val.null := by
  unfold mergeRowR
  rw [Row.getV_append,
    find?_renamed_map_eq l.cols
      (fun c' => if c' == key then rr.getV key else Val.null) _ hren c hc]
  simp [beq_eq_false_iff_ne.mpr hck]

/-- One outer-merge step of `build_kpis`: key column invariants. -/
theorem build_step_days (l r : DF) (k : String)
    (hl : "jour" ∈ l.cols)
    (hlnd : (l.rows.map (fun lr => Row.getV lr "jour")).Nodup)
    (hrnd : (r.rows.map (fun rr => Row.getV rr "jour")).Nodup) :
    "jour" ∈ (l.merge r "jour" MergeHow.outer "" ("_" ++ k)).cols ∧
    (((l.merge r "jour" MergeHow.outer "" ("_" ++ k)).rows.map
        (fun mr => Row.getV mr "jour")).Nodup) ∧
    (∀ d : Val,
      d ∈ (l.merge r "jour" MergeHow.outer "" ("_" ++ k)).rows.map
          (fun mr => Row.getV mr "jour") ↔
        d ∈ l.rows.map (fun lr => Row.getV lr "jour") ∨
        d ∈ r.rows.map (fun rr => Row.getV rr "jour")) := by
  have hren : ∀ c' ∈ l.cols, mergeLRename r.cols "jour" "" c' = c' :=
    fun c' _ => mergeLRename_empty_suffix _ _ _
  have hkeys := merge_outer_keys l r "jour" "" ("_" ++ k) hrnd hren hl
  refine ⟨?_, ?_, ?_⟩
  · simp only [DF.merge]
    refine List.mem_append.mpr (Or.inl ?_)
    exact List.mem_map.mpr ⟨"jour", hl, mergeLRename_empty_suffix _ _ _⟩
  · rw [hkeys]
    refine List.Nodup.append hlnd ?_ ?_
    · exact List.Nodup.sublist (List.Sublist.map _ (List.filter_sublist _)) hrnd
    · intro d hdl hdr
      obtain ⟨rr, hrrf, hrrv⟩ := List.mem_map.mp hdr
      obtain ⟨hrr, hcond⟩ := List.mem_filter.mp hrrf
      obtain ⟨lr, hlr, hlrv⟩ := List.mem_map.mp hdl
      have : l.rows.any (fun lr' => Row.getV lr' "jour" == Row.getV rr "jour") = true :=
        List.any_eq_true.mpr ⟨lr, hlr, beq_iff_eq.mpr (hlrv.trans hrrv.symm)⟩
      rw [this] at hcond
      exact absurd hcond (by decide)
  · intro d
    rw [hkeys, List.mem_append]
    constructor
    · rintro (h | h)
      · exact Or.inl h
      · obtain ⟨rr, hrrf, hrrv⟩ := List.mem_map.mp h
        exact Or.inr (List.mem_map.mpr ⟨rr, (List.mem_filter.mp hrrf).1, hrrv⟩)
    · rintro (h | h)
      · exact Or.inl h
      · by_cases hdl : d ∈ l.rows.map (fun lr => Row.getV lr "jour")
        · exact Or.inl hdl
        · obtain ⟨rr, hrr, hrrv⟩ := List.mem_map.mp h
          refine Or.inr (List.mem_map.mpr ⟨rr, List.mem_filter.mpr ⟨hrr, ?_⟩, hrrv⟩)
          have hx : (l.rows.any fun lr =>
              Row.getV lr "jour" == Row.getV rr "jour") = false := by
            refine List.any_eq_false.mpr ?_
            intro lr hlr hb
            have hv : Row.getV lr "jour" = Row.getV rr "jour" := beq_iff_eq.mp hb
            exact hdl (List.mem_map.mpr ⟨lr, hlr, hv.trans hrrv⟩)
          rw [hx]
          rfl

/-- The `build_kpis` fold: the day column of the accumulated outer join
stays duplicate-free and covers exactly the union of the days seen. -/
theorem build_fold_days (rest : List (String × DF)) (acc : DF)
    (hacc : "jour" ∈ acc.cols)
    (haccnd : (acc.rows.map (fun r => Row.getV r "jour")).Nodup)
    (hrest : ∀ p ∈ rest, p.2.hasCol "jour" = true ∧
      (p.2.rows.map (fun r => Row.getV r "jour")).Nodup) :
    "jour" ∈ (rest.foldl (fun a p =>
        a.merge p.2 "jour" MergeHow.outer "" ("_" ++ p.1)) acc).cols ∧
    ((rest.foldl (fun a p => a.merge p.2 "jour" MergeHow.outer "" ("_" ++ p.1))
        acc).rows.map (fun r => Row.getV r "jour")).Nodup ∧
    (∀ d : Val,
      d ∈ (rest.foldl (fun a p => a.merge p.2 "jour" MergeHow.outer "" ("_" ++ p.1))
          acc).rows.map (fun r => Row.getV r "jour") ↔
        d ∈ acc.rows.map (fun r => Row.getV r "jour") ∨
        ∃ p ∈ rest, d ∈ p.2.rows.map (fun r => Row.getV r "jour")) := by
  induction rest generalizing acc with
  | nil => exact ⟨hacc, haccnd, fun d => by simp⟩
  | cons p rest ih =>
    obtain ⟨hpj, hpnd⟩ := hrest p (List.mem_cons_self _ _)
    have hstep := build_step_days acc p.2 p.1 hacc haccnd hpnd
    simp only [List.foldl_cons]
    obtain ⟨ha', hnd', hiff'⟩ := ih (acc.merge p.2 "jour" MergeHow.outer "" ("_" ++ p.1))
      hstep.1 hstep.2.1 (fun q hq => hrest q (List.mem_cons_of_mem _ hq))
    refine ⟨ha', hnd', fun d => ?_⟩
    rw [hiff' d, hstep.2.2 d]
    constructor
    · rintro ((h | h) | ⟨q, hq, hd⟩)
      · exact Or.inl h
      · exact Or.inr ⟨p, List.mem_cons_self _ _, h⟩
      · exact Or.inr ⟨q, List.mem_cons_of_mem _ hq, hd⟩
    · rintro (h | ⟨q, hq, hd⟩)
      · exact Or.inl (Or.inl h)
      · rcases List.mem_cons.mp hq with hq | hq
        · subst hq
          exact Or.inl (Or.inr hd)
        · exact Or.inr ⟨q, hq, hd⟩

/-- **C6, amended** — `build_kpis` applied to a mapping containing a
single day-keyed aggregate returns that aggregate with its day column
renamed to the canonical day key and no rows lost or duplicated; applied
to several aggregates it outer-joins them on the day key, and — **when
every joined aggregate has at most one row per day** — the result has one
row per day in the union of all days seen across sources; days missing
from some source carry nulls rather than being dropped (third conjunct,
shown for a two-source join on sanely-named schemas: the missing source's
suffixed columns are null on such rows, and symmetrically).  Aggregates
that repeat a day (a secondary key such as `compteur_id` or `code_ligne`)
fall outside the per-day-uniqueness hypothesis, and the join then
multiplies rows within a day — see the counterexample. -/
theorem build_kpis_roundtrip_outer_union :
    (∀ (k : String) (df : DF), k ≠ "daily_kpis" → df.rows ≠ [] →
      (df.hasCol "jour" = true → build_kpis [(k, df)] = df) ∧
      (df.hasCol "jour" = false → df.hasCol "date" = true →
        build_kpis [(k, df)] = df.renameCol "date" "jour" ∧
        (build_kpis [(k, df)]).rows.length = df.rows.length)) ∧
    (∀ ags : List (String × DF),
      (∀ p ∈ ags.filterMap (fun q => normalizeAggregate q.1 q.2),
        (p.2.rows.map (fun r => Row.getV r "jour")).Nodup) →
      ((build_kpis ags).rows.map (fun r => Row.getV r "jour")).Nodup ∧
      (∀ d : Val, d ∈ (build_kpis ags).rows.map (fun r => Row.getV r "jour") ↔
        ∃ p ∈ ags.filterMap (fun q => normalizeAggregate q.1 q.2),
          d ∈ p.2.rows.map (fun r => Row.getV r "jour"))) ∧
    (∀ (k₁ k₂ : String) (df₁ df₂ : DF),
      k₁ ≠ "daily_kpis" → k₂ ≠ "daily_kpis" → df₁.rows ≠ [] → df₂.rows ≠ [] →
      df₁.hasCol "jour" = true → df₂.hasCol "jour" = true →
      (∀ c ∈ df₂.cols, ¬ c = "jour" →
        mergeRRename df₁.cols "jour" ("_" ++ k₂) c ∉ df₁.cols) →
      (∀ c' ∈ df₂.cols, ¬ c' = "jour" → ∀ c'' ∈ df₂.cols, ¬ c'' = "jour" →
        mergeRRename df₁.cols "jour" ("_" ++ k₂) c' =
          mergeRRename df₁.cols "jour" ("_" ++ k₂) c'' → c' = c'') →
      ∀ r ∈ (build_kpis [(k₁, df₁), (k₂, df₂)]).rows,
        (Row.getV r "jour" ∉ df₂.rows.map (fun q => Row.getV q "jour") →
          ∀ c ∈ df₂.cols, ¬ c = "jour" →
            Row.getV r (mergeRRename df₁.cols "jour" ("_" ++ k₂) c) = Val.null) ∧
        (Row.getV r "jour" ∉ df₁.rows.map (fun q => Row.getV q "jour") →
          ∀ c ∈ df₁.cols, ¬ c = "jour" → Row.getV r c = Val.null)) := by
  have hnorm_jour : ∀ (k : String) (df : DF), k ≠ "daily_kpis" → df.rows ≠ [] →
      df.hasCol "jour" = true → normalizeAggregate k df = some (k, df) := by
    intro k df hk hne hj
    have hie : df.isEmpty = false := by simp [DF.isEmpty, List.isEmpty_iff, hne]
    simp [normalizeAggregate, hie, hk, hj]
  refine ⟨?_, ?_, ?_⟩
  · intro k df hk hne
    have hie : df.isEmpty = false := by simp [DF.isEmpty, List.isEmpty_iff, hne]
    constructor
    · intro hj
      simp [build_kpis, hnorm_jour k df hk hne hj]
    · intro hj hd
      have : normalizeAggregate k df = some (k, df.renameCol "date" "jour") := by
        simp [normalizeAggregate, hie, hk, hj, hd]
      constructor
      · simp [build_kpis, this]
      · simp [build_kpis, this, DF.renameCol]
  · intro ags hnd
    rcases hn : ags.filterMap (fun q => normalizeAggregate q.1 q.2) with _ | ⟨p₀, rest⟩
    · unfold build_kpis
      rw [hn]
      exact ⟨List.nodup_nil, fun d => by simp [DF.emptyDF]⟩
    · have hfold := build_fold_days rest p₀.2
        (List.mem_of_elem_eq_true (normalized_hasCol_jour ags p₀
          (hn ▸ List.mem_cons_self _ _)))
        (hnd p₀ (hn ▸ List.mem_cons_self _ _))
        (fun q hq =>
          ⟨normalized_hasCol_jour ags q (hn ▸ List.mem_cons_of_mem _ hq),
           hnd q (hn ▸ List.mem_cons_of_mem _ hq)⟩)
      have hb : build_kpis ags = rest.foldl (fun a p =>
          a.merge p.2 "jour" MergeHow.outer "" ("_" ++ p.1)) p₀.2 := by
        unfold build_kpis
        rw [hn]
      rw [hb]
      refine ⟨hfold.2.1, fun d => ?_⟩
      rw [hfold.2.2 d, hn]
      constructor
      · rintro (h | ⟨q, hq, hd⟩)
        · exact ⟨p₀, List.mem_cons_self _ _, h⟩
        · exact ⟨q, List.mem_cons_of_mem _ hq, hd⟩
      · rintro ⟨q, hq, hd⟩
        rcases List.mem_cons.mp hq with h | h
        · subst h; exact Or.inl hd
        · exact Or.inr ⟨q, h, hd⟩
  · intro k₁ k₂ df₁ df₂ hk₁ hk₂ hne₁ hne₂ hj₁ hj₂ hshadow hinj r hr
    have hb : build_kpis [(k₁, df₁), (k₂, df₂)] =
        df₁.merge df₂ "jour" MergeHow.outer "" ("_" ++ k₂) := by
      simp [build_kpis, hnorm_jour k₁ df₁ hk₁ hne₁ hj₁, hnorm_jour k₂ df₂ hk₂ hne₂ hj₂]
    rw [hb] at hr
    have hren : ∀ c' ∈ df₁.cols, mergeLRename df₂.cols "jour" "" c' = c' :=
      fun c' _ => mergeLRename_empty_suffix _ _ _
    have hjm₁ : "jour" ∈ df₁.cols := List.mem_of_elem_eq_true hj₁
    have hrows : (df₁.merge df₂ "jour" MergeHow.outer "" ("_" ++ k₂)).rows =
        (df₁.rows.flatMap (fun lr =>
          match df₂.rows.filter (fun rr =>
              Row.getV rr "jour" == Row.getV lr "jour") with
          | [] => [mergeRowL df₁ df₂ "jour" "" ("_" ++ k₂) lr none]
          | rrs => rrs.map (fun rr =>
              mergeRowL df₁ df₂ "jour" "" ("_" ++ k₂) lr (some rr)))) ++
        ((df₂.rows.filter (fun rr =>
            !(df₁.rows.any (fun lr =>
              Row.getV lr "jour" == Row.getV rr "jour")))).map
          (mergeRowR df₁ df₂ "jour" "" ("_" ++ k₂))) := by
      simp only [DF.merge]
    rw [hrows] at hr
    rcases List.mem_append.mp hr with hL | hR
    · obtain ⟨lr, hlr, hfib⟩ := List.mem_flatMap.mp hL
      rcases hfil : df₂.rows.filter (fun rr =>
          Row.getV rr "jour" == Row.getV lr "jour") with _ | ⟨rr₀, rrs⟩
      · rw [hfil] at hfib
        have hre : r = mergeRowL df₁ df₂ "jour" "" ("_" ++ k₂) lr none := by
          simpa using hfib
        subst hre
        constructor
        · intro _ c hc hck
          rw [getV_mergeRowL_right df₁ df₂ "jour" "" ("_" ++ k₂) lr none hren c _
            hc hck rfl (hshadow c hc hck)
            (fun c' h1 h2 h3 => hinj c' h1 h2 c hc hck h3)]
        · intro hday _ _ _
          exact absurd (List.mem_map.mpr ⟨lr, hlr,
            (getV_mergeRowL_left df₁ df₂ "jour" "" ("_" ++ k₂) lr none hren "jour"
              hjm₁).symm⟩) hday
      · rw [hfil] at hfib
        obtain ⟨rr, hrrm, hre⟩ := List.mem_map.mp hfib
        subst hre
        have hrrf : rr ∈ df₂.rows.filter (fun rr' =>
            Row.getV rr' "jour" == Row.getV lr "jour") := by
          rw [hfil]; exact hrrm
        obtain ⟨hrr₂, hrrk⟩ := List.mem_filter.mp hrrf
        have hkeyr : Row.getV (mergeRowL df₁ df₂ "jour" "" ("_" ++ k₂) lr (some rr))
            "jour" = Row.getV lr "jour" :=
          getV_mergeRowL_left df₁ df₂ "jour" "" ("_" ++ k₂) lr (some rr) hren "jour" hjm₁
        constructor
        · intro hday
          exact absurd (List.mem_map.mpr ⟨rr, hrr₂,
            (beq_iff_eq.mp hrrk).trans hkeyr.symm⟩) hday
        · intro hday
          exact absurd (List.mem_map.mpr ⟨lr, hlr, hkeyr.symm⟩) hday
    · obtain ⟨rr, hrrf, hre⟩ := List.mem_map.mp hR
      obtain ⟨hrr₂, -⟩ := List.mem_filter.mp hrrf
      subst hre
      have hkeyr : Row.getV (mergeRowR df₁ df₂ "jour" "" ("_" ++ k₂) rr) "jour" =
          Row.getV rr "jour" :=
        getV_mergeRowR_key df₁ df₂ "jour" "" ("_" ++ k₂) rr hren hjm₁
      constructor
      · intro hday
        exact absurd (List.mem_map.mpr ⟨rr, hrr₂, hkeyr.symm⟩) hday
      · intro _ c hc hck
        exact getV_mergeRowR_nonkey df₁ df₂ "jour" "" ("_" ++ k₂) rr hren c hc hck

/-- Witness for C6 at concrete aggregates. -/
theorem build_kpis_roundtrip_outer_union_witness :
    (build_kpis [("s1", dfAggDate)] = dfAggDate.renameCol "date" "jour") ∧
    ((build_kpis [("s1", dfAggJour)]) = dfAggJour) ∧
    ((build_kpis [("s1", dfAggDate), ("s2", dfAggJour)]).rows.map
      (fun r => Row.getV r "jour")).Nodup ∧
    (∀ r ∈ (build_kpis [("a", dfAggJour), ("b", dfAggJour)]).rows,
      (Row.getV r "jour" ∉ dfAggJour.rows.map (fun q => Row.getV q "jour") →
        ∀ c ∈ dfAggJour.cols, ¬ c = "jour" →
          Row.getV r (mergeRRename dfAggJour.cols "jour" ("_" ++ "b") c) = Val.null) ∧
      (Row.getV r "jour" ∉ dfAggJour.rows.map (fun q => Row.getV q "jour") →
        ∀ c ∈ dfAggJour.cols, ¬ c = "jour" → Row.getV r c = Val.null)) :=
  ⟨((build_kpis_roundtrip_outer_union.1 "s1" dfAggDate (by decide) (by decide)).2
      (by decide) (by decide)).1,
   (build_kpis_roundtrip_outer_union.1 "s1" dfAggJour (by decide) (by decide)).1
     (by decide),
   (build_kpis_roundtrip_outer_union.2.1 [("s1", dfAggDate), ("s2", dfAggJour)]
     (by decide)).1,
   build_kpis_roundtrip_outer_union.2.2 "a" "b" dfAggJour dfAggJour (by decide)
     (by decide) (by decide) (by decide) (by decide) (by decide) (by decide)
     (by decide)⟩

theorem forall₂_mem_right {α β : Type} {P : α → β → Prop} {l : List α}
    {m : List β} (h : List.Forall₂ P l m) : ∀ b ∈ m, ∃ a ∈ l, P a b := by
  induction h with
  | nil => intro b hb; cases hb
  | cons hab _ ih =>
    intro b hb
    rcases List.mem_cons.mp hb with h | h
    · exact ⟨_, List.mem_cons_self _ _, h ▸ hab⟩
    · obtain ⟨a, ha, hP⟩ := ih b h
      exact ⟨a, List.mem_cons_of_mem _ ha, hP⟩

theorem getV_zip_single_key (kc : String) (v : Val) (tail : List (String × Val)) :
    Row.getV ((kc, v) :: tail) kc = v := by
  simp [Row.getV_cons]

/-- **C6, counterexample** — fed an aggregate that repeats a day (here
one day, two counters, as `aggregate_comptage_velo`'s `(compteur_id,
jour)` key produces) together with a second day-keyed source,
`build_kpis` returns **two** rows for that single day: the outer join on
`jour` multiplies rows within a day, so the result is not one row per
day in the union of all days seen. -/
theorem build_kpis_union_duplicate_days_counterexample :
    ((build_kpis [("comptage_velo", dfAggCompteurJour),
      ("meteo", dfAggMeteo)]).rows.map (fun r => Row.getV r "jour")) =
      [Val.num 0, Val.num 0] ∧
    ¬ ((build_kpis [("comptage_velo", dfAggCompteurJour),
      ("meteo", dfAggMeteo)]).rows.map (fun r => Row.getV r "jour")).Nodup := by
  refine ⟨by decide, by decide⟩

/-- The elements of a single-column group-key list are non-null singletons. -/
theorem mem_groupKeys_single (kc : String) (rows : List Row) (k : List Val)
    (hk : k ∈ groupKeys [kc] rows) :
    ∃ v, k = [v] ∧ v ≠ Val.null ∧ v ∈ rows.map (fun r => Row.getV r kc) := by
  obtain ⟨hm, hnn⟩ := (mem_groupKeys _ _ _).mp hk
  obtain ⟨r, hr, hv⟩ := List.mem_map.mp hm
  refine ⟨Row.getV r kc, by rw [← hv]; rfl, ?_, List.mem_map.mpr ⟨r, hr, rfl⟩⟩
  intro hnull
  rw [← hv] at hnn
  simp [keyOf, hnull] at hnn

/-- The key column of a single-key `groupAgg`, as a list. -/
theorem groupAgg_single_key_col (df : DF) (kc : String)
    (aggs : List (String × (List Row → Val))) :
    (df.groupAgg [kc] aggs).rows.map (fun r => Row.getV r kc) =
      (groupKeys [kc] df.rows).map (fun k => k.getD 0 Val.null) := by
  unfold DF.groupAgg
  rw [List.map_map]
  apply List.map_congr_left
  intro k hk
  obtain ⟨v, hv, -, -⟩ := mem_groupKeys_single kc df.rows k hk
  subst hv
  simp only [Function.comp]
  rw [show List.zip [kc] [v] = [(kc, v)] from rfl]
  simp [getV_zip_single_key]

/-- The key column of a single-key `groupAgg` has no duplicates. -/
theorem groupAgg_single_key_nodup (df : DF) (kc : String)
    (aggs : List (String × (List Row → Val))) :
    ((df.groupAgg [kc] aggs).rows.map (fun r => Row.getV r kc)).Nodup := by
  rw [groupAgg_single_key_col]
  refine List.Nodup.map_on ?_ (nodup_groupKeys _ _)
  intro x hx y hy hxy
  obtain ⟨vx, hvx, -, -⟩ := mem_groupKeys_single kc df.rows x hx
  obtain ⟨vy, hvy, -, -⟩ := mem_groupKeys_single kc df.rows y hy
  subst hvx; subst hvy
  simpa using hxy

/-- `addConst` leaves every other column of every row unchanged. -/
theorem getV_addConst_ne (df : DF) (c c' : String) (v : Val) (h : c' ≠ c) :
    ∀ r ∈ (df.addConst c v).rows, ∃ r₀ ∈ df.rows,
      r = r₀.setV c v ∧ Row.getV r c' = Row.getV r₀ c' := by
  intro r hr
  obtain ⟨r₀, hr₀, hre⟩ := List.mem_map.mp hr
  exact ⟨r₀, hr₀, hre.symm, by rw [← hre, Row.getV_setV_ne _ _ _ _ h]⟩

/-- `addConst` leaves the numeric view of every other column unchanged. -/
theorem colNums_addConst_ne (df : DF) (c c' : String) (v : Val) (h : c' ≠ c) :
    (df.addConst c v).colNums c' = df.colNums c' := by
  unfold DF.colNums DF.addConst DF.addCol
  rw [List.filterMap_map]
  apply List.filterMap_congr
  intro r _
  simp only [Function.comp]
  rw [Row.getV_setV_ne _ _ _ _ h]

/-- **C8, counterexample** — with exactly one joined row,
`correlate_chantiers_velo` returns the base joined relation **without**
the `correlation_chantiers_velo` column (or the mean/stddev columns): the
coefficient is not attached as a NaN/null-valued constant column, the
column is simply absent. -/
theorem correlate_single_row_missing_columns_counterexample :
    correlate_chantiers_velo dfVeloOneDay dfChantOne =
      Except.ok (okDF (correlate_chantiers_velo dfVeloOneDay dfChantOne)) ∧
    (okDF (correlate_chantiers_velo dfVeloOneDay dfChantOne)).rows.length = 1 ∧
    (okDF (correlate_chantiers_velo dfVeloOneDay dfChantOne)).cols =
      ["date", "total_velos", "nb_chantiers_actifs"] ∧
    (okDF (correlate_chantiers_velo dfVeloOneDay dfChantOne)).hasCol
      "correlation_chantiers_velo" = false := by
  refine ⟨by decide, by decide, by decide, by decide⟩

/-- Core of `correlate_chantiers_velo`: the daily bike relation
inner-joined with the per-day active-works counts computed from its own
day list carries, in every row, the containment count of its day. -/
theorem correlate_core (td prep : DF)
    (htdcols : td.cols = ["date", "total_velos"])
    (hnd : (td.rows.map (fun r => Row.getV r "date")).Nodup) :
    (∀ mr ∈ (td.merge
        ⟨["date", "nb_chantiers_actifs"],
         (td.rows.map (fun r => Row.getV r "date")).map (fun d =>
           [("date", d),
            ("nb_chantiers_actifs", Val.num (countChantiersActifsOn prep d))])⟩
        "date" MergeHow.inner "_x" "_y").rows,
      Row.getV mr "nb_chantiers_actifs" =
        Val.num (countChantiersActifsOn prep (Row.getV mr "date"))) ∧
    (td.merge
        ⟨["date", "nb_chantiers_actifs"],
         (td.rows.map (fun r => Row.getV r "date")).map (fun d =>
           [("date", d),
            ("nb_chantiers_actifs", Val.num (countChantiersActifsOn prep d))])⟩
        "date" MergeHow.inner "_x" "_y").cols =
      ["date", "total_velos", "nb_chantiers_actifs"] := by
  set cd : DF :=
    ⟨["date", "nb_chantiers_actifs"],
     (td.rows.map (fun r => Row.getV r "date")).map (fun d =>
       [("date", d),
        ("nb_chantiers_actifs", Val.num (countChantiersActifsOn prep d))])⟩ with hcd
  have hcdkeys : cd.rows.map (fun r => Row.getV r "date") =
      td.rows.map (fun r => Row.getV r "date") := by
    rw [hcd]
    simp only [List.map_map]
    apply List.map_congr_left
    intro r _
    simp [Function.comp, Row.getV_cons]
  have hcdnd : (cd.rows.map (fun r => Row.getV r "date")).Nodup := by
    rw [hcdkeys]; exact hnd
  have htot : ∀ lr ∈ td.rows, ∃ rr ∈ cd.rows,
      Row.getV rr "date" = Row.getV lr "date" := by
    intro lr hlr
    refine ⟨[("date", Row.getV lr "date"),
      ("nb_chantiers_actifs",
       Val.num (countChantiersActifsOn prep (Row.getV lr "date")))], ?_, ?_⟩
    · rw [hcd]
      exact List.mem_map.mpr ⟨Row.getV lr "date",
        List.mem_map.mpr ⟨lr, hlr, rfl⟩, rfl⟩
    · simp [Row.getV_cons]
  have hF := merge_inner_forall₂ td cd "date" "_x" "_y" hcdnd htot
  have hrenL : ∀ c' ∈ td.cols, mergeLRename cd.cols "date" "_x" c' = c' := by
    rw [htdcols, hcd]
    intro c' hc'
    fin_cases hc' <;> rfl
  have hdatemem : "date" ∈ td.cols := by rw [htdcols]; exact List.mem_cons_self _ _
  constructor
  · intro mr hmr
    obtain ⟨lr, hlr, rr, hrr, hkey, hmre⟩ := forall₂_mem_right hF mr hmr
    subst hmre
    have hdate : Row.getV (mergeRowL td cd "date" "_x" "_y" lr (some rr)) "date" =
        Row.getV lr "date" :=
      getV_mergeRowL_left td cd "date" "_x" "_y" lr (some rr) hrenL "date" hdatemem
    have hnb : Row.getV (mergeRowL td cd "date" "_x" "_y" lr (some rr))
        "nb_chantiers_actifs" = Row.getV rr "nb_chantiers_actifs" := by
      have := getV_mergeRowL_right td cd "date" "_x" "_y" lr (some rr) hrenL
        "nb_chantiers_actifs" "nb_chantiers_actifs" ?_ ?_ ?_ ?_ ?_
      · exact this
      · rw [hcd]; exact List.mem_cons_of_mem _ (List.mem_cons_self _ _)
      · decide
      · rw [htdcols]; rfl
      · rw [htdcols]; decide
      · rw [hcd, htdcols]
        intro c' hc' hck _
        rcases List.mem_cons.mp hc' with hh | hh
        · exact absurd hh hck
        · simpa using hh
    have hrrval : ∃ d₀, rr = [("date", d₀),
        ("nb_chantiers_actifs", Val.num (countChantiersActifsOn prep d₀))] := by
      rw [hcd] at hrr
      obtain ⟨d₀, -, hre⟩ := List.mem_map.mp hrr
      exact ⟨d₀, hre.symm⟩
    obtain ⟨d₀, hre⟩ := hrrval
    subst hre
    have hd₀ : d₀ = Row.getV lr "date" := by
      rw [← hkey]; simp [Row.getV_cons]
    rw [hnb, hdate, ← hd₀]
    simp [Row.getV_cons]
  · simp only [DF.merge]
    rw [htdcols]
    rfl

theorem addConst_cols_fresh (df : DF) (c : String) (v : Val)
    (h : df.cols.contains c = false) :
    (df.addConst c v).cols = df.cols ++ [c] := by
  unfold DF.addConst DF.addCol
  rw [h]
  rfl

theorem addConst_rows_length (df : DF) (c : String) (v : Val) :
    (df.addConst c v).rows.length = df.rows.length := by
  simp [DF.addConst, DF.addCol]

theorem getV_setV₃_ne (r : Row) (c₁ c₂ c₃ c' : String) (v₁ v₂ v₃ : Val)
    (h₁ : c' ≠ c₁) (h₂ : c' ≠ c₂) (h₃ : c' ≠ c₃) :
    Row.getV (((r.setV c₁ v₁).setV c₂ v₂).setV c₃ v₃) c' = Row.getV r c' := by
  rw [Row.getV_setV_ne _ _ _ _ h₃, Row.getV_setV_ne _ _ _ _ h₂,
    Row.getV_setV_ne _ _ _ _ h₁]

theorem getV_setV₃_first (r : Row) (c₁ c₂ c₃ : String) (v₁ v₂ v₃ : Val)
    (h₂ : c₁ ≠ c₂) (h₃ : c₁ ≠ c₃) :
    Row.getV (((r.setV c₁ v₁).setV c₂ v₂).setV c₃ v₃) c₁ = v₁ := by
  rw [Row.getV_setV_ne _ _ _ _ h₃, Row.getV_setV_ne _ _ _ _ h₂,
    Row.getV_setV_self]

theorem getV_setV₃_second (r : Row) (c₁ c₂ c₃ : String) (v₁ v₂ v₃ : Val)
    (h₃ : c₂ ≠ c₃) :
    Row.getV (((r.setV c₁ v₁).setV c₂ v₂).setV c₃ v₃) c₂ = v₂ := by
  rw [Row.getV_setV_ne _ _ _ _ h₃, Row.getV_setV_self]

theorem getV_setV₃_third (r : Row) (c₁ c₂ c₃ : String) (v₁ v₂ v₃ : Val) :
    Row.getV (((r.setV c₁ v₁).setV c₂ v₂).setV c₃ v₃) c₃ = v₃ :=
  Row.getV_setV_self _ _ _

theorem colNums_three_consts (base : DF) (v₁ v₂ v₃ : Val) (c' : String)
    (h₁ : c' ≠ "correlation_chantiers_velo") (h₂ : c' ≠ "moyenne_velos")
    (h₃ : c' ≠ "ecart_type_velos") :
    (((base.addConst "correlation_chantiers_velo" v₁).addConst "moyenne_velos"
      v₂).addConst "ecart_type_velos" v₃).colNums c' = base.colNums c' := by
  rw [colNums_addConst_ne _ _ _ _ h₃, colNums_addConst_ne _ _ _ _ h₂,
    colNums_addConst_ne _ _ _ _ h₁]

theorem cols_three_consts (base : DF) (v₁ v₂ v₃ : Val)
    (hb : base.cols = ["date", "total_velos", "nb_chantiers_actifs"]) :
    (((base.addConst "correlation_chantiers_velo" v₁).addConst "moyenne_velos"
      v₂).addConst "ecart_type_velos" v₃).cols =
      ["date", "total_velos", "nb_chantiers_actifs", "correlation_chantiers_velo",
       "moyenne_velos", "ecart_type_velos"] := by
  have h₁ := addConst_cols_fresh base "correlation_chantiers_velo" v₁
    (by rw [hb]; decide)
  have h₂ := addConst_cols_fresh (base.addConst "correlation_chantiers_velo" v₁)
    "moyenne_velos" v₂ (by rw [h₁, hb]; decide)
  have h₃ := addConst_cols_fresh ((base.addConst "correlation_chantiers_velo"
    v₁).addConst "moyenne_velos" v₂) "ecart_type_velos" v₃
    (by rw [h₂, h₁, hb]; decide)
  rw [h₃, h₂, h₁, hb]
  rfl

theorem gt_one_cond (df : DF) (h : 1 < df.rows.length) :
    (!df.isEmpty && decide (1 < df.rows.length)) = true := by
  have h0 : df.isEmpty = false := by
    unfold DF.isEmpty
    cases hr : df.rows with
    | nil => rw [hr] at h; exact absurd h (by decide)
    | cons a l => rfl
  rw [h0]
  simp [decide_eq_true h]

/-- **C8, amended** — `correlate_chantiers_velo` aggregates bike counts
per day, counts active public-works per day by interval containment,
inner-joins on day (every row of any successful result carries the
containment count of its own day), and attaches the Pearson coefficient
and the mean/stddev of the bike series as constant columns **only when
the join has strictly more than one row**; with exactly one joined row
the result has only the three base columns — the statistics columns, the
NaN coefficient included, are absent rather than null-valued. -/
theorem correlate_chantiers_velo_amended (dfC dfCh out : DF)
    (h : correlate_chantiers_velo dfC dfCh = Except.ok out) :
    (∀ r ∈ out.rows, Row.getV r "nb_chantiers_actifs" =
        Val.num (countChantiersActifsOn (chantiersPrepared dfCh) (Row.getV r "date"))) ∧
    (1 < out.rows.length →
      out.cols = ["date", "total_velos", "nb_chantiers_actifs",
        "correlation_chantiers_velo", "moyenne_velos", "ecart_type_velos"] ∧
      ∀ r ∈ out.rows,
        Row.getV r "correlation_chantiers_velo" =
          pearsonQ (out.colNums "total_velos") (out.colNums "nb_chantiers_actifs") ∧
        Row.getV r "moyenne_velos" = meanQ (out.colNums "total_velos") ∧
        Row.getV r "ecart_type_velos" = sampleStdQ (out.colNums "total_velos")) ∧
    (out.rows.length = 1 →
      out.cols = ["date", "total_velos", "nb_chantiers_actifs"]) := by
  unfold correlate_chantiers_velo at h
  split at h
  · have hout : out = DF.emptyDF := by injection h with h; exact h.symm
    subst hout
    refine ⟨by simp [DF.emptyDF], ?_, ?_⟩
    · intro h'; exact absurd h' (by simp [DF.emptyDF])
    · intro h'; exact absurd h' (by simp [DF.emptyDF])
  split at h
  · have hout : out = DF.emptyDF := by injection h with h; exact h.symm
    subst hout
    refine ⟨by simp [DF.emptyDF], ?_, ?_⟩
    · intro h'; exact absurd h' (by simp [DF.emptyDF])
    · intro h'; exact absurd h' (by simp [DF.emptyDF])
  split at h
  · have hout : out = DF.emptyDF := by injection h with h; exact h.symm
    subst hout
    refine ⟨by simp [DF.emptyDF], ?_, ?_⟩
    · intro h'; exact absurd h' (by simp [DF.emptyDF])
    · intro h'; exact absurd h' (by simp [DF.emptyDF])
  dsimp only [] at h
  split at h
  · cases h
  rename_i hdne
  have hcore := correlate_core
    (((dfC.addCol "date" fun r =>
      dtDate (toDatetime (r.getV "date_heure"))).dropna ["date"]).groupAgg
        ["date"] [("total_velos", aggSum "comptage_horaire")])
    (chantiersPrepared dfCh) rfl (groupAgg_single_key_nodup _ _ _)
  split at h
  · rename_i hgt
    injection h with hout
    subst hout
    refine ⟨?_, ?_, ?_⟩
    · intro r hr
      simp only [DF.addConst, DF.addCol] at hr
      obtain ⟨r₂, hr₂, rfl⟩ := List.mem_map.mp hr
      obtain ⟨r₁, hr₁, rfl⟩ := List.mem_map.mp hr₂
      obtain ⟨r₀, hr₀, rfl⟩ := List.mem_map.mp hr₁
      rw [getV_setV₃_ne r₀ _ _ _ "nb_chantiers_actifs" _ _ _ (by decide)
            (by decide) (by decide),
          getV_setV₃_ne r₀ _ _ _ "date" _ _ _ (by decide) (by decide) (by decide)]
      exact hcore.1 r₀ hr₀
    · intro _
      constructor
      · exact cols_three_consts _ _ _ _ hcore.2
      · intro r hr
        rw [colNums_three_consts _ _ _ _ "total_velos" (by decide) (by decide)
              (by decide),
            colNums_three_consts _ _ _ _ "nb_chantiers_actifs" (by decide)
              (by decide) (by decide)]
        simp only [DF.addConst, DF.addCol] at hr
        obtain ⟨r₂, hr₂, rfl⟩ := List.mem_map.mp hr
        obtain ⟨r₁, hr₁, rfl⟩ := List.mem_map.mp hr₂
        obtain ⟨r₀, hr₀, rfl⟩ := List.mem_map.mp hr₁
        exact ⟨getV_setV₃_first r₀ _ _ _ _ _ _ (by decide) (by decide),
               getV_setV₃_second r₀ _ _ _ _ _ _ (by decide),
               getV_setV₃_third r₀ _ _ _ _ _ _⟩
    · intro h1
      exfalso
      rw [addConst_rows_length, addConst_rows_length, addConst_rows_length] at h1
      have hgt' := (Bool.and_eq_true _ _).mp hgt
      have := of_decide_eq_true hgt'.2
      rw [h1] at this
      exact absurd this (by decide)
  · rename_i hle
    injection h with hout
    subst hout
    refine ⟨hcore.1, ?_, fun _ => hcore.2⟩
    intro hgt
    exact absurd (gt_one_cond _ hgt) hle

theorem correlate_chantiers_velo_amended_witness :
    1 < (okDF (correlate_chantiers_velo dfVeloTwoDays dfChantOne)).rows.length ∧
    (okDF (correlate_chantiers_velo dfVeloTwoDays dfChantOne)).cols =
      ["date", "total_velos", "nb_chantiers_actifs",
       "correlation_chantiers_velo", "moyenne_velos", "ecart_type_velos"] :=
  ⟨by decide,
   ((correlate_chantiers_velo_amended dfVeloTwoDays dfChantOne
      (okDF (correlate_chantiers_velo dfVeloTwoDays dfChantOne))
      (by decide)).2.1 (by decide)).1⟩

theorem forall₂_trans_comp {α β γ : Type} {P : α → β → Prop} {Q : β → γ → Prop}
    {R : α → γ → Prop} (h : ∀ a b c, P a b → Q b c → R a c) :
    ∀ {l₁ : List α} {l₂ : List β} {l₃ : List γ},
      List.Forall₂ P l₁ l₂ → List.Forall₂ Q l₂ l₃ → List.Forall₂ R l₁ l₃ := by
  intro l₁ l₂ l₃ h₁ h₂
  induction h₁ generalizing l₃ with
  | nil => cases h₂; exact List.Forall₂.nil
  | cons hab htl ih =>
    cases h₂ with
    | cons hbc htl₂ => exact List.Forall₂.cons (h _ _ _ hab hbc) (ih htl₂)

theorem select_coords_keys_nodup (X : DF) :
    (((X.dropDupFirst "compteur_id").select
        ["compteur_id", "latitude", "longitude"]).rows.map
      (fun r => Row.getV r "compteur_id")).Nodup := by
  simp only [DF.select, List.map_map, Function.comp_def]
  have heq : ((X.dropDupFirst "compteur_id").rows.map
      (fun r => Row.getV (["compteur_id", "latitude", "longitude"].map
        (fun c => (c, Row.getV r c))) "compteur_id")) =
      (X.dropDupFirst "compteur_id").rows.map
        (fun r => Row.getV r "compteur_id") :=
    List.map_congr_left (fun r _ => Row.getV_selectRow r _ _ (by decide))
  rw [heq]
  exact keys_dropDupFirst X "compteur_id"

theorem extract_coords_shape (b : Option DF) :
    (extractCoordinatesFromBikes b).cols =
      ["compteur_id", "latitude", "longitude"] ∧
    ((extractCoordinatesFromBikes b).rows.map
      (fun r => Row.getV r "compteur_id")).Nodup := by
  unfold extractCoordinatesFromBikes
  match b with
  | none => exact ⟨rfl, List.nodup_nil⟩
  | some df =>
    dsimp only
    split
    · exact ⟨rfl, List.nodup_nil⟩
    · split
      · exact ⟨rfl, List.nodup_nil⟩
      · split
        · exact ⟨rfl, List.nodup_nil⟩
        · exact ⟨rfl, select_coords_keys_nodup _⟩

theorem contains_single_false (a b : String) (h : ¬ b = a) :
    ([a].contains b) = false := by
  cases hcc : ([a].contains b) with
  | false => rfl
  | true =>
    have hm := List.mem_of_elem_eq_true hcc
    simp at hm
    exact absurd hm h

theorem not_contains_filter_self (cs : List String) (x : String) (hx : x ∉ cs) :
    cs.filter (fun c => !([x].contains c)) = cs :=
  List.filter_eq_self.mpr (fun c hc => by
    rw [contains_single_false x c (fun he => hx (he ▸ hc))]
    rfl)

theorem addCol_dropCols_cols (X : DF) (coord sufCol : String) (f : Row → Val)
    (hc : X.hasCol coord = true) :
    ((X.addCol coord f).dropCols [sufCol]).cols =
      X.cols.filter (fun c => !([sufCol].contains c)) := by
  simp only [DF.addCol, DF.dropCols]
  rw [if_pos (show X.cols.contains coord = true from hc)]

theorem addCol_dropCols_rows (X : DF) (coord sufCol : String) (f : Row → Val) :
    ((X.addCol coord f).dropCols [sufCol]).rows =
      X.rows.map (fun r => (r.setV coord (f r)).filter
        (fun p => !([sufCol].contains p.1))) := by
  simp only [DF.addCol, DF.dropCols, List.map_map]
  rfl

theorem coordFillStep_preserves (enr coordDf : DF) (suf : String)
    (hCk : coordDf.cols = ["compteur_id", "latitude", "longitude"])
    (hnd : (coordDf.rows.map (fun rr => Row.getV rr "compteur_id")).Nodup)
    (hlat : "latitude" ∈ enr.cols) (hlon : "longitude" ∈ enr.cols)
    (hsl : ("latitude" ++ suf) ∉ enr.cols)
    (hso : ("longitude" ++ suf) ∉ enr.cols)
    (hdiff : ¬ ("latitude" ++ suf) = "longitude" ++ suf) :
    (coordFillStep enr coordDf suf).cols = enr.cols ∧
    List.Forall₂ (fun lr fr =>
      (Row.getV lr "latitude" ≠ Val.null →
        Row.getV fr "latitude" = Row.getV lr "latitude") ∧
      (Row.getV lr "longitude" ≠ Val.null →
        Row.getV fr "longitude" = Row.getV lr "longitude"))
      enr.rows (coordFillStep enr coordDf suf).rows := by
  have hren : ∀ c' ∈ enr.cols,
      mergeLRename coordDf.cols "compteur_id" "" c' = c' :=
    fun c' _ => mergeLRename_empty_suffix _ _ _
  have hrl : mergeRRename enr.cols "compteur_id" suf "latitude" =
      "latitude" ++ suf := by
    unfold mergeRRename
    rw [if_pos ⟨by decide, List.elem_eq_true_of_mem hlat⟩]
  have hro : mergeRRename enr.cols "compteur_id" suf "longitude" =
      "longitude" ++ suf := by
    unfold mergeRRename
    rw [if_pos ⟨by decide, List.elem_eq_true_of_mem hlon⟩]
  have hmcols : (enr.merge coordDf "compteur_id" MergeHow.left "" suf).cols =
      enr.cols ++ ["latitude" ++ suf, "longitude" ++ suf] := by
    simp only [DF.merge]
    rw [hCk]
    have h1 : enr.cols.map
        (mergeLRename ["compteur_id", "latitude", "longitude"] "compteur_id" "") =
        enr.cols := by
      rw [List.map_congr_left (fun c _ => mergeLRename_empty_suffix _ _ c)]
      exact List.map_id _
    have h2 : (["compteur_id", "latitude", "longitude"].filter
        (fun c => !(c == "compteur_id"))) = ["latitude", "longitude"] := by decide
    rw [h1, h2]
    simp only [List.map_cons, List.map_nil]
    rw [hrl, hro]
  have hF := merge_left_forall₂ enr coordDf "compteur_id" "" suf hnd
  simp only [coordFillStep, List.foldl_cons, List.foldl_nil]
  generalize hm : enr.merge coordDf "compteur_id" MergeHow.left "" suf = m
  rw [hm] at hmcols hF
  have hc1 : m.hasCol ("latitude" ++ suf) = true := by
    show m.cols.contains _ = true
    rw [hmcols]
    exact List.elem_eq_true_of_mem
      (List.mem_append_right _ (List.mem_cons_self _ _))
  have hc1' : m.hasCol "latitude" = true := by
    show m.cols.contains _ = true
    rw [hmcols]
    exact List.elem_eq_true_of_mem (List.mem_append_left _ hlat)
  rw [if_pos hc1, if_pos hc1']
  have hAcols : ((m.addCol "latitude" (fun r =>
      if r.getV "latitude" == Val.null then r.getV ("latitude" ++ suf)
      else r.getV "latitude")).dropCols ["latitude" ++ suf]).cols =
      enr.cols ++ ["longitude" ++ suf] := by
    rw [addCol_dropCols_cols _ _ _ _ hc1', hmcols, List.filter_append,
      not_contains_filter_self _ _ hsl]
    have ha : (([("latitude" : String) ++ suf].contains ("latitude" ++ suf))) =
        true := List.elem_eq_true_of_mem (List.mem_cons_self _ _)
    have hb : (([("latitude" : String) ++ suf].contains ("longitude" ++ suf))) =
        false := contains_single_false _ _ (fun he => hdiff he.symm)
    simp only [List.filter_cons, ha, hb, Bool.not_true, Bool.not_false,
      Bool.false_eq_true, if_false, if_true, List.filter_nil]
  have hc2 : ((m.addCol "latitude" (fun r =>
      if r.getV "latitude" == Val.null then r.getV ("latitude" ++ suf)
      else r.getV "latitude")).dropCols ["latitude" ++ suf]).hasCol
      ("longitude" ++ suf) = true := by
    show _ = true
    rw [show ((m.addCol "latitude" (fun r =>
        if r.getV "latitude" == Val.null then r.getV ("latitude" ++ suf)
        else r.getV "latitude")).dropCols ["latitude" ++ suf]).hasCol
        ("longitude" ++ suf) = ((m.addCol "latitude" (fun r =>
        if r.getV "latitude" == Val.null then r.getV ("latitude" ++ suf)
        else r.getV "latitude")).dropCols ["latitude" ++ suf]).cols.contains
        ("longitude" ++ suf) from rfl, hAcols]
    exact List.elem_eq_true_of_mem
      (List.mem_append_right _ (List.mem_cons_self _ _))
  have hc2' : ((m.addCol "latitude" (fun r =>
      if r.getV "latitude" == Val.null then r.getV ("latitude" ++ suf)
      else r.getV "latitude")).dropCols ["latitude" ++ suf]).hasCol
      "longitude" = true := by
    show _ = true
    rw [show ((m.addCol "latitude" (fun r =>
        if r.getV "latitude" == Val.null then r.getV ("latitude" ++ suf)
        else r.getV "latitude")).dropCols ["latitude" ++ suf]).hasCol
        "longitude" = ((m.addCol "latitude" (fun r =>
        if r.getV "latitude" == Val.null then r.getV ("latitude" ++ suf)
        else r.getV "latitude")).dropCols ["latitude" ++ suf]).cols.contains
        "longitude" from rfl, hAcols]
    exact List.elem_eq_true_of_mem (List.mem_append_left _ hlon)
  rw [if_pos hc2, if_pos hc2']
  constructor
  · rw [addCol_dropCols_cols _ _ _ _ hc2', hAcols, List.filter_append,
      not_contains_filter_self _ _ hso]
    have hcs : (([("longitude" : String) ++ suf].contains
        ("longitude" ++ suf))) = true :=
      List.elem_eq_true_of_mem (List.mem_cons_self _ _)
    simp only [List.filter_cons, hcs, Bool.not_true, Bool.false_eq_true,
      if_false, List.filter_nil, List.append_nil]
  · rw [addCol_dropCols_rows, addCol_dropCols_rows, List.map_map]
    rw [List.forall₂_map_right_iff]
    refine hF.imp ?_
    intro lr mr hPm
    simp only [Function.comp_apply]
    have hml : Row.getV mr "latitude" = Row.getV lr "latitude" := by
      rcases hPm with ⟨rr, _, _, rfl⟩ | ⟨_, rfl⟩ <;>
        exact getV_mergeRowL_left enr coordDf "compteur_id" "" suf lr _
          hren "latitude" hlat
    have hmo : Row.getV mr "longitude" = Row.getV lr "longitude" := by
      rcases hPm with ⟨rr, _, _, rfl⟩ | ⟨_, rfl⟩ <;>
        exact getV_mergeRowL_left enr coordDf "compteur_id" "" suf lr _
          hren "longitude" hlon
    have hglat2 : (([("longitude" : String) ++ suf].contains "latitude")) =
        false := contains_single_false _ _ (fun he => hso (he ▸ hlat))
    have hglat1 : (([("latitude" : String) ++ suf].contains "latitude")) =
        false := contains_single_false _ _ (fun he => hsl (he ▸ hlat))
    have hglon2 : (([("longitude" : String) ++ suf].contains "longitude")) =
        false := contains_single_false _ _ (fun he => hso (he ▸ hlon))
    have hglon1 : (([("latitude" : String) ++ suf].contains "longitude")) =
        false := contains_single_false _ _ (fun he => hsl (he ▸ hlon))
    constructor
    · intro hne
      rw [Row.getV_dropColsRow _ _ _ hglat2,
        Row.getV_setV_ne _ _ _ _ (by decide),
        Row.getV_dropColsRow _ _ _ hglat1,
        Row.getV_setV_self, hml]
      have hbeq : (Row.getV lr "latitude" == Val.null) = false :=
        beq_eq_false_iff_ne.mpr hne
      simp only [hbeq, Bool.false_eq_true, if_false]
    · intro hne
      rw [Row.getV_dropColsRow _ _ _ hglon2, Row.getV_setV_self]
      rw [Row.getV_dropColsRow _ _ _ hglon1,
        Row.getV_setV_ne _ _ _ _ (by decide), hmo]
      have hbeq : (Row.getV lr "longitude" == Val.null) = false :=
        beq_eq_false_iff_ne.mpr hne
      simp only [hbeq, Bool.false_eq_true, if_false]

theorem assignFallback_forall₂ (df : DF)
    (hid : df.hasCol "compteur_id" = true)
    (hlat : df.hasCol "latitude" = true)
    (hlon : df.hasCol "longitude" = true) :
    (assignFallbackCoordinates df).cols = df.cols ∧
    List.Forall₂ (fun r fr =>
      Row.getV fr "latitude" ≠ Val.null ∧
      Row.getV fr "longitude" ≠ Val.null ∧
      ((Row.getV r "latitude" ≠ Val.null ∧ Row.getV r "longitude" ≠ Val.null) →
        fr = r))
      df.rows (assignFallbackCoordinates df).rows := by
  unfold assignFallbackCoordinates
  cases hie : df.isEmpty with
  | true =>
    have hrows : df.rows = [] := by
      have : df.rows.isEmpty = true := hie
      exact List.isEmpty_iff.mp this
    rw [if_pos (show (true || !df.hasCol "compteur_id") = true from rfl)]
    refine ⟨rfl, ?_⟩
    rw [hrows]
    exact List.Forall₂.nil
  | false =>
    have hcond : (false || !df.hasCol "compteur_id") = false := by
      rw [hid]
      rfl
    rw [if_neg (by rw [hcond]; exact Bool.false_ne_true)]
    rw [if_pos (show df.hasCol "latitude" = true from hlat)]
    dsimp only []
    rw [if_pos (show df.hasCol "longitude" = true from hlon)]
    refine ⟨rfl, ?_⟩
    rw [List.forall₂_map_right_iff]
    refine List.forall₂_same.mpr (fun r _ => ?_)
    cases hmask : (Row.getV r "latitude" == Val.null ||
        Row.getV r "longitude" == Val.null) with
    | true =>
      rw [if_pos (rfl : (true : Bool) = true)]
      refine ⟨?_, ?_, ?_⟩
      · rw [Row.getV_setV_ne _ _ _ _ (by decide), Row.getV_setV_self]
        intro hc
        exact Val.noConfusion hc
      · rw [Row.getV_setV_self]
        intro hc
        exact Val.noConfusion hc
      · rintro ⟨h1, h2⟩
        rcases Bool.or_eq_true_iff.mp hmask with hx | hx
        · exact absurd (beq_iff_eq.mp hx) h1
        · exact absurd (beq_iff_eq.mp hx) h2
    | false =>
      rw [if_neg Bool.false_ne_true]
      rcases Bool.or_eq_false_iff.mp hmask with ⟨hx, hy⟩
      exact ⟨beq_eq_false_iff_ne.mp hx, beq_eq_false_iff_ne.mp hy,
        fun _ => rfl⟩

theorem mem_of_hasCol_true (df : DF) (c : String) (h : df.hasCol c = true) :
    c ∈ df.cols := List.mem_of_elem_eq_true h

theorem not_mem_of_hasCol_false (df : DF) (c : String)
    (h : df.hasCol c = false) : c ∉ df.cols := by
  intro hm
  have h2 : df.hasCol c = true := List.elem_eq_true_of_mem hm
  rw [h] at h2
  exact Bool.false_ne_true h2

theorem hasCol_of_cols_eq {X Y : DF} (h : X.cols = Y.cols) (c : String) :
    X.hasCol c = Y.hasCol c := by
  show X.cols.contains c = Y.cols.contains c
  rw [h]

/-- The tail of the coordinate enrichment (static-reference fill, then
hash fallback, then the debug-print column check): totality of the
output coordinates and preservation of fully-known coordinate pairs. -/
theorem enrich_tail (refCoords df e1 out : DF)
    (hid : df.hasCol "compteur_id" = true)
    (hlat : df.hasCol "latitude" = true)
    (hlon : df.hasCol "longitude" = true)
    (hsr : df.hasCol "latitude_ref" = false)
    (hor : df.hasCol "longitude_ref" = false)
    (hrc : refCoords.isEmpty = true ∨
      (refCoords.cols = ["compteur_id", "latitude", "longitude"] ∧
       (refCoords.rows.map (fun rr => Row.getV rr "compteur_id")).Nodup))
    (he1cols : e1.cols = df.cols)
    (h : (do
      let e2 ←
        if refCoords.isEmpty then pure e1
        else if e1.hasCol "compteur_id" && refCoords.hasCol "compteur_id" then
          pure (coordFillStep e1 refCoords "_ref")
        else Except.error "KeyError: compteur_id"
      let e3 := assignFallbackCoordinates e2
      if e3.hasCol "compteur_id" && e3.hasCol "latitude" &&
          e3.hasCol "longitude" then
        pure e3
      else
        Except.error "KeyError: debug print column" : Except String DF) =
      Except.ok out) :
    List.Forall₂ (fun r fr =>
      Row.getV fr "latitude" ≠ Val.null ∧
      Row.getV fr "longitude" ≠ Val.null ∧
      ((Row.getV r "latitude" ≠ Val.null ∧
        Row.getV r "longitude" ≠ Val.null) →
        Row.getV fr "latitude" = Row.getV r "latitude" ∧
        Row.getV fr "longitude" = Row.getV r "longitude"))
      e1.rows out.rows := by
  by_cases hree : refCoords.isEmpty = true
  · rw [if_pos hree] at h
    simp only [Bind.bind, pure, Except.bind, Except.pure] at h
    have hfb := assignFallback_forall₂ e1
      (by rw [hasCol_of_cols_eq he1cols]; exact hid)
      (by rw [hasCol_of_cols_eq he1cols]; exact hlat)
      (by rw [hasCol_of_cols_eq he1cols]; exact hlon)
    have hcond : ((assignFallbackCoordinates e1).hasCol "compteur_id" &&
        (assignFallbackCoordinates e1).hasCol "latitude" &&
        (assignFallbackCoordinates e1).hasCol "longitude") = true := by
      rw [hasCol_of_cols_eq hfb.1, hasCol_of_cols_eq hfb.1,
        hasCol_of_cols_eq hfb.1, hasCol_of_cols_eq he1cols,
        hasCol_of_cols_eq he1cols, hasCol_of_cols_eq he1cols, hid, hlat, hlon]
      rfl
    rw [if_pos hcond] at h
    injection h with h
    subst h
    exact hfb.2.imp (fun r fr him =>
      ⟨him.1, him.2.1, fun hb => by rw [him.2.2 hb]; exact ⟨rfl, rfl⟩⟩)
  · rw [if_neg hree] at h
    rcases hrc with hre | ⟨hrcols, hrnd⟩
    · exact absurd hre hree
    have hbc : (e1.hasCol "compteur_id" && refCoords.hasCol "compteur_id") =
        true := by
      rw [hasCol_of_cols_eq he1cols, hid,
        show refCoords.hasCol "compteur_id" = true from by
          show refCoords.cols.contains _ = true
          rw [hrcols]
          rfl]
      rfl
    rw [if_pos hbc] at h
    simp only [Bind.bind, pure, Except.bind, Except.pure] at h
    have hstr1 : ("latitude" ++ "_ref" : String) = "latitude_ref" := by decide
    have hstr2 : ("longitude" ++ "_ref" : String) = "longitude_ref" := by decide
    have hfill := coordFillStep_preserves e1 refCoords "_ref" hrcols hrnd
      (by rw [he1cols]; exact mem_of_hasCol_true df _ hlat)
      (by rw [he1cols]; exact mem_of_hasCol_true df _ hlon)
      (by rw [hstr1, he1cols]; exact not_mem_of_hasCol_false df _ hsr)
      (by rw [hstr2, he1cols]; exact not_mem_of_hasCol_false df _ hor)
      (by decide)
    have he2cols : (coordFillStep e1 refCoords "_ref").cols = df.cols := by
      rw [hfill.1, he1cols]
    have hfb := assignFallback_forall₂ (coordFillStep e1 refCoords "_ref")
      (by rw [hasCol_of_cols_eq he2cols]; exact hid)
      (by rw [hasCol_of_cols_eq he2cols]; exact hlat)
      (by rw [hasCol_of_cols_eq he2cols]; exact hlon)
    have hcond : ((assignFallbackCoordinates
        (coordFillStep e1 refCoords "_ref")).hasCol "compteur_id" &&
        (assignFallbackCoordinates
          (coordFillStep e1 refCoords "_ref")).hasCol "latitude" &&
        (assignFallbackCoordinates
          (coordFillStep e1 refCoords "_ref")).hasCol "longitude") = true := by
      rw [hasCol_of_cols_eq hfb.1, hasCol_of_cols_eq hfb.1,
        hasCol_of_cols_eq hfb.1, hasCol_of_cols_eq he2cols,
        hasCol_of_cols_eq he2cols, hasCol_of_cols_eq he2cols, hid, hlat, hlon]
      rfl
    rw [if_pos hcond] at h
    injection h with h
    subst h
    refine forall₂_trans_comp ?_ hfill.2 hfb.2
    intro a b c hab hbc
    refine ⟨hbc.1, hbc.2.1, ?_⟩
    rintro ⟨h1, h2⟩
    have hb1 : Row.getV b "latitude" = Row.getV a "latitude" := hab.1 h1
    have hb2 : Row.getV b "longitude" = Row.getV a "longitude" := hab.2 h2
    have h3 := hbc.2.2 ⟨by rw [hb1]; exact h1, by rw [hb2]; exact h2⟩
    rw [h3]
    exact ⟨hb1, hb2⟩

set_option maxHeartbeats 2000000 in
/-- **C3, amended** — coordinate resolution (snapshot join, static
reference join, then deterministic fallback) on a relation with
`compteur_id`, `latitude` and `longitude` columns (and no shadowing
suffixed columns) yields, row for row, non-null latitude and longitude;
a row whose latitude **and** longitude were both already non-null keeps
both values.  (Preservation row by row fails for half-known rows: the
fallback mask `lat.isna() | lon.isna()` overwrites both coordinates.) -/
theorem enrich_coordinates_amended (refCoords df : DF) (dfBikes : Option DF)
    (out : DF)
    (hid : df.hasCol "compteur_id" = true)
    (hlat : df.hasCol "latitude" = true)
    (hlon : df.hasCol "longitude" = true)
    (hsb : df.hasCol "latitude_bike" = false)
    (hob : df.hasCol "longitude_bike" = false)
    (hsr : df.hasCol "latitude_ref" = false)
    (hor : df.hasCol "longitude_ref" = false)
    (hrc : refCoords.isEmpty = true ∨
      (refCoords.cols = ["compteur_id", "latitude", "longitude"] ∧
       (refCoords.rows.map (fun rr => Row.getV rr "compteur_id")).Nodup))
    (h : enrichComptageWithCoordinates refCoords df dfBikes = Except.ok out) :
    List.Forall₂ (fun r fr =>
      Row.getV fr "latitude" ≠ Val.null ∧
      Row.getV fr "longitude" ≠ Val.null ∧
      ((Row.getV r "latitude" ≠ Val.null ∧
        Row.getV r "longitude" ≠ Val.null) →
        Row.getV fr "latitude" = Row.getV r "latitude" ∧
        Row.getV fr "longitude" = Row.getV r "longitude"))
      df.rows out.rows := by
  unfold enrichComptageWithCoordinates at h
  by_cases hie : df.isEmpty = true
  · rw [if_pos hie] at h
    injection h with h
    subst h
    rw [show df.rows = [] from List.isEmpty_iff.mp hie]
    exact List.Forall₂.nil
  · rw [if_neg hie] at h
    have hcds := extract_coords_shape dfBikes
    by_cases hce : (extractCoordinatesFromBikes dfBikes).isEmpty = true
    · rw [if_pos hce] at h
      simp only [Bind.bind, pure, Except.bind, Except.pure] at h
      exact enrich_tail refCoords df df out hid hlat hlon hsr hor hrc rfl h
    · rw [if_neg hce] at h
      have hbid : (df.hasCol "compteur_id" &&
          (extractCoordinatesFromBikes dfBikes).hasCol "compteur_id") =
          true := by
        rw [hid, show (extractCoordinatesFromBikes dfBikes).hasCol
            "compteur_id" = true from by
          show (extractCoordinatesFromBikes dfBikes).cols.contains _ = true
          rw [hcds.1]
          rfl]
        rfl
      rw [if_pos hbid] at h
      simp only [Bind.bind, pure, Except.bind, Except.pure] at h
      have hstr1 : ("latitude" ++ "_bike" : String) = "latitude_bike" := by
        decide
      have hstr2 : ("longitude" ++ "_bike" : String) = "longitude_bike" := by
        decide
      have hfill := coordFillStep_preserves df
        (extractCoordinatesFromBikes dfBikes) "_bike" hcds.1 hcds.2
        (mem_of_hasCol_true df _ hlat) (mem_of_hasCol_true df _ hlon)
        (by rw [hstr1]; exact not_mem_of_hasCol_false df _ hsb)
        (by rw [hstr2]; exact not_mem_of_hasCol_false df _ hob)
        (by decide)
      have htail := enrich_tail refCoords df
        (coordFillStep df (extractCoordinatesFromBikes dfBikes) "_bike") out
        hid hlat hlon hsr hor hrc hfill.1 h
      refine forall₂_trans_comp ?_ hfill.2 htail
      intro a b c hab hbc
      refine ⟨hbc.1, hbc.2.1, ?_⟩
      rintro ⟨h1, h2⟩
      have hb1 := hab.1 h1
      have hb2 := hab.2 h2
      have h3 := hbc.2.2 ⟨by rw [hb1]; exact h1, by rw [hb2]; exact h2⟩
      exact ⟨by rw [h3.1, hb1], by rw [h3.2, hb2]⟩

/-- **C3, counterexample** — a row with a non-null latitude and a null
longitude does **not** keep its latitude: the fallback mask
`lat.isna() | lon.isna()` selects the row and overwrites both
coordinates with the hash fallback, which lands inside the Paris box and
hence away from the prior value 10. -/
theorem enrich_overwrites_known_latitude_counterexample :
    ∃ out, enrichComptageWithCoordinates refEmptyCoords dfHalfCoord none =
        Except.ok out ∧
      Row.getV dfHalfCoord.rows.headI "latitude" = Val.num 10 ∧
      Row.getV out.rows.headI "latitude" ≠ Val.num 10 := by
  refine ⟨assignFallbackCoordinates dfHalfCoord, rfl, rfl, ?_⟩
  have hrow : Row.getV (assignFallbackCoordinates dfHalfCoord).rows.headI
      "latitude" = Val.num (fallbackLat "x") := rfl
  rw [hrow]
  intro heq
  have heqq : fallbackLat "x" = 10 := Val.num.inj heq
  have h0 := hashToUnit_nonneg "x" 0
  have h1 := hashToUnit_lt_one "x" 0
  unfold fallbackLat at heqq
  nlinarith [h0, h1]

theorem enrich_coordinates_amended_witness :
    List.Forall₂ (fun r fr =>
      Row.getV fr "latitude" ≠ Val.null ∧
      Row.getV fr "longitude" ≠ Val.null ∧
      ((Row.getV r "latitude" ≠ Val.null ∧
        Row.getV r "longitude" ≠ Val.null) →
        Row.getV fr "latitude" = Row.getV r "latitude" ∧
        Row.getV fr "longitude" = Row.getV r "longitude"))
      dfBothCoord.rows
      (okDF (enrichComptageWithCoordinates refEmptyCoords dfBothCoord
        none)).rows :=
  enrich_coordinates_amended refEmptyCoords dfBothCoord none
    (okDF (enrichComptageWithCoordinates refEmptyCoords dfBothCoord none))
    (by decide) (by decide) (by decide) (by decide) (by decide) (by decide)
    (by decide) (Or.inl (by decide)) (by decide)

theorem vdiv_null_right (v : Val) : vdiv v Val.null = Val.null := by
  cases v <;> rfl

theorem vfill0_vdiv_vsub_self (v w : Val) :
    vfill0 (vdiv (vsub v v) w) = Val.num 0 := by
  cases v with
  | num a =>
    simp only [vsub, sub_self]
    cases w with
    | num b =>
      by_cases hb : b = 0
      · simp only [vdiv, if_pos hb, vfill0]
      · simp only [vdiv, if_neg hb, zero_div, vfill0]
    | null => rfl
    | str s => rfl
    | bool b => rfl
  | null => cases w <;> rfl
  | str s => cases w <;> rfl
  | bool b => cases w <;> rfl

/-- Reading the z-score of a frame row gives the fill-0 quotient of its
own cells. -/
theorem zscoreFrame_char (df : DF) :
    ∀ r ∈ (zscoreFrame df).rows,
      Row.getV r "zscore" =
        vfill0 (vdiv (vsub (Row.getV r "comptage_horaire")
          (Row.getV r "mean")) (Row.getV r "std")) := by
  intro r hr
  simp only [zscoreFrame, DF.addCol] at hr
  obtain ⟨r₀, hr₀, rfl⟩ := List.mem_map.mp hr
  rw [Row.getV_setV_self,
    Row.getV_setV_ne _ _ _ _ (by decide),
    Row.getV_setV_ne _ _ _ _ (by decide),
    Row.getV_setV_ne _ _ _ _ (by decide)]

theorem anomaliesFlagged_zscore (df : DF) :
    ∀ r ∈ (anomaliesFlagged df 3).rows,
      vabsGtB (Row.getV r "zscore") 3 = true := by
  intro r hr
  simp only [anomaliesFlagged, DF.addCol, DF.filterRows] at hr
  obtain ⟨r₀, hr₀, rfl⟩ := List.mem_map.mp hr
  rw [Row.getV_setV_ne _ _ _ _ (by decide)]
  exact (List.mem_filter.mp hr₀).2

/-- **C5** — `detect_anomalies_zscore` at threshold 3 and cap 200: each
frame row's z-score is `(x − mean)/std` with a missing (null-std or
otherwise undefined) quotient filled as 0; a reading equal to its
counter's mean has z-score 0 and fails the flag test; a reading at
mean + 4·std (std positive) has z-score 4 and is flagged as
`pic_exceptionnel`; every output row passes the `|z| > 3` test; and the
output is the flagged selection capped to the 200 rows of largest
absolute z-score. -/
theorem detect_anomalies_zscore_spec (df out : DF)
    (h : detect_anomalies_zscore df 3 200 = Except.ok out) :
    (∀ r ∈ (zscoreFrame df).rows,
      Row.getV r "zscore" =
        vfill0 (vdiv (vsub (Row.getV r "comptage_horaire")
          (Row.getV r "mean")) (Row.getV r "std"))) ∧
    (∀ r ∈ (zscoreFrame df).rows, Row.getV r "std" = Val.null →
      Row.getV r "zscore" = Val.num 0) ∧
    (∀ r ∈ (zscoreFrame df).rows,
      Row.getV r "comptage_horaire" = Row.getV r "mean" →
      Row.getV r "zscore" = Val.num 0 ∧
      vabsGtB (Row.getV r "zscore") 3 = false) ∧
    (∀ r ∈ (zscoreFrame df).rows, ∀ m s : ℚ,
      Row.getV r "mean" = Val.num m → Row.getV r "std" = Val.num s →
      0 < s → Row.getV r "comptage_horaire" = Val.num (m + 4 * s) →
      Row.getV r "zscore" = Val.num 4 ∧
      r.setV "type_anomalie" (Val.str "pic_exceptionnel") ∈
        (anomaliesFlagged df 3).rows) ∧
    (∀ r ∈ out.rows, vabsGtB (Row.getV r "zscore") 3 = true) ∧
    (∀ sel, (anomaliesFlagged df 3).selectE
        ["compteur_id", "date_heure", "comptage_horaire", "mean", "std",
         "zscore", "type_anomalie"] = Except.ok sel →
      df.isEmpty = false → df.hasCol "compteur_id" = true →
      df.hasCol "comptage_horaire" = true →
      (sel.rows.length ≤ 200 → out = sel) ∧
      (200 < sel.rows.length → out.rows.length = 200 ∧
        ∃ dropped : List Row, (out.rows ++ dropped).Perm sel.rows ∧
          ∀ a ∈ out.rows, ∀ b ∈ dropped,
            |rowNum "zscore" b| ≤ |rowNum "zscore" a|)) := by
  have hpic : ∀ r ∈ (zscoreFrame df).rows, ∀ m s : ℚ,
      Row.getV r "mean" = Val.num m → Row.getV r "std" = Val.num s →
      0 < s → Row.getV r "comptage_horaire" = Val.num (m + 4 * s) →
      Row.getV r "zscore" = Val.num 4 ∧
      r.setV "type_anomalie" (Val.str "pic_exceptionnel") ∈
        (anomaliesFlagged df 3).rows := by
    intro r hr m s hm hs hspos hc
    have hz : Row.getV r "zscore" = Val.num 4 := by
      rw [zscoreFrame_char df r hr, hc, hm, hs]
      have h4 : m + 4 * s - m = 4 * s := by ring
      simp only [vsub, h4, vdiv, if_neg (ne_of_gt hspos)]
      rw [mul_div_assoc, div_self (ne_of_gt hspos), mul_one]
      rfl
    refine ⟨hz, ?_⟩
    have hp : vabsGtB (Row.getV r "zscore") 3 = true := by
      rw [hz]
      decide
    simp only [anomaliesFlagged, DF.addCol, DF.filterRows]
    refine List.mem_map.mpr ⟨r, List.mem_filter.mpr ⟨hr, hp⟩, ?_⟩
    rw [hz]
    rfl
  have hatmean : ∀ r ∈ (zscoreFrame df).rows,
      Row.getV r "comptage_horaire" = Row.getV r "mean" →
      Row.getV r "zscore" = Val.num 0 ∧
      vabsGtB (Row.getV r "zscore") 3 = false := by
    intro r hr heq
    have hz : Row.getV r "zscore" = Val.num 0 := by
      rw [zscoreFrame_char df r hr, heq]
      exact vfill0_vdiv_vsub_self _ _
    refine ⟨hz, ?_⟩
    rw [hz]
    decide
  have hnullstd : ∀ r ∈ (zscoreFrame df).rows,
      Row.getV r "std" = Val.null → Row.getV r "zscore" = Val.num 0 := by
    intro r hr hstd
    rw [zscoreFrame_char df r hr, hstd, vdiv_null_right]
    rfl
  unfold detect_anomalies_zscore at h
  split at h
  · rename_i hg
    injection h with h
    subst h
    refine ⟨zscoreFrame_char df, hnullstd, hatmean, hpic, ?_, ?_⟩
    · intro r hr
      exact absurd hr (by simp [DF.emptyDF])
    · intro sel _ hie hcid hcc
      rw [hie, hcid, hcc] at hg
      exact absurd hg (by decide)
  · rename_i hg
    dsimp only [] at h
    split at h
    · cases h
    rename_i hms
    rcases hsel : (anomaliesFlagged df 3).selectE
        ["compteur_id", "date_heure", "comptage_horaire", "mean", "std",
         "zscore", "type_anomalie"] with e | sel'
    · rw [hsel] at h
      simp only [Bind.bind, Except.bind] at h
      cases h
    rw [hsel] at h
    simp only [Bind.bind, Except.bind, pure, Except.pure, Except.ok.injEq] at h
    have hselrows : ∀ r ∈ sel'.rows,
        vabsGtB (Row.getV r "zscore") 3 = true := by
      unfold DF.selectE at hsel
      split at hsel
      · injection hsel with hsel
        subst hsel
        intro r hr
        simp only [DF.select] at hr
        obtain ⟨r₀, hr₀, rfl⟩ := List.mem_map.mp hr
        rw [Row.getV_selectRow _ _ _ (by decide)]
        exact anomaliesFlagged_zscore df r₀ hr₀
      · cases hsel
    refine ⟨zscoreFrame_char df, hnullstd, hatmean, hpic, ?_, ?_⟩
    · intro r hr
      rw [← h] at hr
      by_cases hlen : 200 < sel'.rows.length
      · rw [if_pos hlen] at hr
        have hr' : r ∈ sortRowsDescBy (fun r => |rowNum "zscore" r|)
            sel'.rows := List.mem_of_mem_take hr
        exact hselrows r ((sortRowsDescBy_perm _ _).mem_iff.mp hr')
      · rw [if_neg hlen] at hr
        exact hselrows r hr
    · intro sel hseleq hie hcid hcc
      injection hseleq with hseleq
      subst hseleq
      constructor
      · intro hle
        rw [← h, if_neg (not_lt.mpr hle)]
      · intro hlen
        rw [← h, if_pos hlen]
        have hsorted := sortRowsDescBy_sorted
          (fun r => |rowNum "zscore" r|) sel'.rows
        refine ⟨?_, (sortRowsDescBy (fun r => |rowNum "zscore" r|)
            sel'.rows).drop 200, ?_, ?_⟩
        · simp only [List.length_take]
          have := (sortRowsDescBy_perm (fun r => |rowNum "zscore" r|)
            sel'.rows).length_eq
          omega
        · rw [List.take_append_drop]
          exact sortRowsDescBy_perm _ _
        · exact sorted_rel_take_drop hsorted 200

set_option maxRecDepth 4000 in
theorem detect_anomalies_zscore_spec_witness :
    Row.getV rowZW "zscore" = Val.num 4 ∧
    rowZW.setV "type_anomalie" (Val.str "pic_exceptionnel") ∈
      (anomaliesFlagged dfZscoreW 3).rows :=
  (detect_anomalies_zscore_spec dfZscoreW
      (okDF (detect_anomalies_zscore dfZscoreW 3 200))
      (by decide)).2.2.2.1
    rowZW (by decide) 10 1 (by decide) (by decide) (by decide) (by decide)
